import Mathlib

/-!
The command handlers of the catnip packet-mirroring agent (`cmd.c`).

A shallow embedding of `wr`, `rd`, `map_arphrd_to_dlt`, `cmd_iflist`,
`set_promisc`, `open_sock` and `cmd_mirror`.  The C functions talk to the
kernel; the kernel is a value of type `World` that every function receives
and returns.  A system call appends itself to `World.trace`, so that the
order and the arguments of the calls a function makes can be stated.
-/

namespace Catnip

/-! ## Constants of the system headers -/

/-- Exit code `EX_OK` of `sysexits.h`. -/
def EX_OK : Int := 0
/-- Exit code `EX_DATAERR` of `sysexits.h`. -/
def EX_DATAERR : Int := 65
/-- Exit code `EX_UNAVAILABLE` of `sysexits.h`. -/
def EX_UNAVAILABLE : Int := 69
/-- Exit code `EX_SOFTWARE` of `sysexits.h`. -/
def EX_SOFTWARE : Int := 70
/-- Exit code `EX_OSERR` of `sysexits.h`. -/
def EX_OSERR : Int := 71

/-- Error number `EINTR`. -/
def EINTR : Int := 4
/-- Error number `EAGAIN`. -/
def EAGAIN : Int := 11
/-- Error number `ENODEV`. -/
def ENODEV : Int := 19
/-- Error number `EPIPE`. -/
def EPIPE : Int := 32

/-- Hardware type `ARPHRD_ETHER` of `net/if_arp.h`. -/
def ARPHRD_ETHER : Int := 1
/-- Hardware type `ARPHRD_PPP` of `net/if_arp.h`. -/
def ARPHRD_PPP : Int := 512
/-- Hardware type `ARPHRD_LOOPBACK` of `net/if_arp.h`. -/
def ARPHRD_LOOPBACK : Int := 772
/-- Hardware type `ARPHRD_NONE` of `net/if_arp.h`. -/
def ARPHRD_NONE : Int := 0xFFFE

/-- Address family `AF_INET`. -/
def AF_INET : Int := 2
/-- Address family `AF_PACKET`, which `cmd.c` names `AF_LINK` on Linux. -/
def AF_LINK : Int := 17

/-- Interface flag `IFF_UP` of `net/if.h`. -/
def IFF_UP : Nat := 0x1
/-- Interface flag `IFF_PROMISC` of `net/if.h`. -/
def IFF_PROMISC : Nat := 0x100
/-- Size of an interface name field, `IFNAMSIZ` of `net/if.h`. -/
def IFNAMSIZ : Nat := 16

/-- File status flag `O_NONBLOCK` of `fcntl.h`. -/
def O_NONBLOCK : Nat := 0x800

/-- Instruction class `BPF_RET` of `linux/filter.h`. -/
def BPF_RET : Nat := 0x06
/-- Operand source `BPF_K` of `linux/filter.h`. -/
def BPF_K : Nat := 0x00

/-- The value an `int` holds after a wider integer is stored in it. -/
def toInt32 (n : Int) : Int := (n + 2 ^ 31) % 2 ^ 32 - 2 ^ 31

/-- The value an `unsigned short` holds after a wider integer is stored in it. -/
def toUInt16 (n : Nat) : Nat := n % 2 ^ 16

/-- Host-to-network conversion of a 32-bit word on a little-endian host. -/
def htonl (x : Nat) : Nat :=
  (x % 256) * 2 ^ 24 + (x / 2 ^ 8 % 256) * 2 ^ 16 + (x / 2 ^ 16 % 256) * 2 ^ 8 + x / 2 ^ 24 % 256

/-- What `strncpy (dst, src, n)` leaves in a zero-padded field: the first `n`
characters of `src`. -/
def strncpy (src : List Char) (n : Nat) : List Char := src.take n

/-! ## Protocol records (`catnip.h`) -/

/-- Modelled from the spec: `catnip.h` is not among the sources and declares
the `DLT_*` codes that `map_arphrd_to_dlt` returns; the spec gives the link
type as an enumeration of `Ethernet`, `RawIP`, `LinuxCooked`, `Unsupported`. -/
inductive link_type where
  | DLT_EN10MB
  | DLT_RAW
  | DLT_LINUX_SLL
  | DLT_UNSUPP
  deriving DecidableEq, Repr

/-- Modelled from the spec: `struct catnip_iflist` of `catnip.h`, one
`InterfaceRecord {name, link_type, flags}` of an interface-list response. -/
structure catnip_iflist where
  name : List Char
  type : link_type
  flags : Nat
  deriving DecidableEq, Repr

/-- Modelled from the spec: `struct catnip_sock_filter` of `catnip.h`, one
`FilterInstruction {opcode: u16, jt: u8, jf: u8, k: u32}` on the wire. -/
structure catnip_sock_filter where
  code : Nat
  jt : Nat
  jf : Nat
  k : Nat
  deriving DecidableEq, Repr

/-- One instruction of a socket filter, `struct sock_filter` of `linux/filter.h`. -/
structure sock_filter where
  code : Nat
  jt : Nat
  jf : Nat
  k : Nat
  deriving DecidableEq, Repr

/-- Modelled from the spec: the `iflist` view of the payload of `struct
catnip_msg`, `{count: u32}`. -/
structure catnip_msg_iflist where
  num : Nat
  deriving DecidableEq, Repr

/-- Modelled from the spec: the `mirror` view of the payload of `struct
catnip_msg`, `{interface: fixed-size bytes or empty, promiscuous: bool,
port: u16, filter_len: u32}`; an absent interface is the null pointer that
`open_sock` tests for. -/
structure catnip_msg_mirror where
  interface : Option (List Char)
  promisc : Int
  port : Nat
  bf_len : Nat
  deriving DecidableEq, Repr

/-- Modelled from the spec: the payload of `struct catnip_msg`; the C union is
a record that holds both views. -/
structure catnip_payload where
  iflist : catnip_msg_iflist
  mirror : catnip_msg_mirror
  deriving DecidableEq, Repr

/-- Modelled from the spec: `struct catnip_msg` of `catnip.h`, a discriminant
followed by the payload. -/
structure catnip_msg where
  code : Nat
  payload : catnip_payload
  deriving DecidableEq, Repr

/-- Modelled from the spec: the width of the interface count
`msg.payload.iflist.num`, declared in `catnip.h`; the spec gives `u32`. -/
def IFLIST_NUM_MOD : Nat := 2 ^ 32

/-- Modelled from the spec: the discriminant `CATNIP_MSG_IFLIST` of
`catnip.h` (`IFLIST_RESPONSE`, code B of the three codes). -/
def CATNIP_MSG_IFLIST : Nat := 1

/-- Size in bytes of `struct catnip_sock_filter`: `u16`, `u8`, `u8`, `u32`. -/
def sizeof_catnip_sock_filter : Nat := 8

/-- The handle of the control channel, `struct sock`. -/
structure sock where
  fd : Int
  deriving DecidableEq, Repr

/-- What `wr` is asked to send: raw bytes, a message header, or the record
array of an interface list. -/
inductive Payload where
  | bytes (bs : List Nat)
  | msg (m : catnip_msg)
  | iflist (l : List catnip_iflist)
  deriving DecidableEq, Repr

/-- A socket address as far as `cmd_mirror` looks at it. -/
structure sockaddr where
  sa_family : Int
  port : Nat
  host : Nat
  deriving DecidableEq, Repr

/-! ## The kernel -/

/-- The system calls made by `cmd.c`, with the arguments that matter. -/
inductive Call where
  | read (fd : Int) (size : Nat)
  | write (fd : Int) (data : Payload) (size : Nat)
  | getifaddrs
  | calloc (nmemb : Nat) (size : Nat)
  | ioctl_SIOCGIFHWADDR (fd : Int) (name : List Char)
  | ioctl_SIOCGIFFLAGS (fd : Int) (name : List Char)
  | ioctl_SIOCSIFFLAGS (fd : Int) (name : List Char) (flags : Nat)
  | ioctl_SIOCGIFINDEX (fd : Int) (name : List Char)
  | socket_PF_PACKET (raw : Bool)
  | socket_UDP (family : Int)
  | setsockopt_SO_ATTACH_FILTER (fd : Int) (prog : List sock_filter)
  | recv (fd : Int)
  | bind_ll (fd : Int) (ifindex : Int)
  | bind (fd : Int) (addr : sockaddr)
  | connect (fd : Int) (addr : sockaddr)
  | getsockname (fd : Int)
  | getpeername (fd : Int)
  | fcntl_F_GETFL (fd : Int)
  | fcntl_F_SETFL (fd : Int) (flags : Nat)
  | close (fd : Int)
  | select (nfds : Int) (rfds : List Int)
  | send (fd : Int) (len : Int)
  deriving DecidableEq, Repr

/-- What the next `read` on the control channel meets: a failure with an
error number, or bytes that have arrived. -/
inductive RdEvent where
  | fail (e : Int)
  | data (bs : List Nat)
  deriving DecidableEq, Repr

/-- What the next `write` on the control channel meets: a failure with an
error number, or room for `k` more bytes. -/
inductive WrEvent where
  | fail (e : Int)
  | room (k : Nat)
  deriving DecidableEq, Repr

/-- What a waiting `select` meets: a failure with an error number, or a
moment at which the listed descriptors are readable. -/
inductive SelEvent where
  | fail (e : Int)
  | ready (fds : List Int)
  deriving DecidableEq, Repr

/-- One entry of the list `getifaddrs` returns; `ifa_addr` is `none` when the
pointer is null, which `getifaddrs` gives for an interface without an address
of the entry's kind. -/
structure ifaddrs where
  ifa_name : List Char
  ifa_flags : Nat
  ifa_addr : Option sockaddr
  deriving DecidableEq, Repr

/-- A network device as the interface ioctls see it. -/
structure netdev where
  ifindex : Int
  flags : Nat
  hwtype : Int
  deriving DecidableEq, Repr

/-- The kernel and the peers, as seen from the agent.
`fault` names the calls that fail, with the error number; `ctl_in`, `ctl_wr`
and `selects` script the control channel and the readiness waits; `net` lists
the batches of frames that reach the capture socket, one batch during each
call made on that socket (a filter attachment, a receive, an ioctl, a bind,
an fcntl); `cap_filter` and `cap_queue` are the filter and the
receive queue of the capture socket, and `bpf_run` is the kernel's
interpreter of filter programs, which gives the number of bytes of a frame to
keep (`0` drops the frame). -/
structure World where
  errno : Int
  fds : List Int
  fault : Call → Option Int
  ctl_in : List RdEvent
  ctl_wr : List WrEvent
  ctl_out : List (Payload × Nat)
  ifaddr : List ifaddrs
  devs : List Char → Option netdev
  cap_filter : Option (List sock_filter)
  cap_queue : List (List Nat)
  net : List (List (List Nat))
  bpf_run : List sock_filter → List Nat → Nat
  selects : List SelEvent
  ctl_local : sockaddr
  ctl_peer : sockaddr
  trace : List Call

/-- Record a call on the trace. -/
def World.log (w : World) (c : Call) : World := { w with trace := w.trace ++ [c] }

/-- The call `read (fd, buf, size)` on the control channel: the result, the
bytes stored at the start of the buffer, and the kernel afterwards.  A stream
with nothing left is at end of file. -/
def sys_read (w : World) (fd : Int) (size : Nat) : Int × List Nat × World :=
  let w := w.log (Call.read fd size)
  match w.ctl_in with
  | [] => (0, [], w)
  | RdEvent.fail e :: rest => (-1, [], { w with errno := e, ctl_in := rest })
  | RdEvent.data bs :: rest =>
    if bs.length ≤ size then (bs.length, bs, { w with ctl_in := rest })
    else (size, bs.take size, { w with ctl_in := RdEvent.data (bs.drop size) :: rest })

/-- The call `write (fd, data, size)` on the control channel: the result and
the kernel afterwards.  `ctl_out` collects what was sent, as the object and
the number of its leading bytes that were taken. -/
def sys_write (w : World) (fd : Int) (data : Payload) (size : Nat) : Int × World :=
  let w := w.log (Call.write fd data size)
  match w.ctl_wr with
  | [] => (-1, { w with errno := EPIPE })
  | WrEvent.fail e :: rest => (-1, { w with errno := e, ctl_wr := rest })
  | WrEvent.room k :: rest =>
    (min k size, { w with ctl_wr := rest, ctl_out := w.ctl_out ++ [(data, min k size)] })

/-! ## `wr` and `rd` -/

/-- The `do ... while (count < 0)` loop of `wr` and the checks after it. -/
def wr_loop : Nat → World → sock → Payload → Nat → Int × World
  | 0, w, _, _, _ => (-EX_OSERR, w)
  | fuel + 1, w, s, data, size =>
    match sys_write w s.fd data size with
    | (ret, w1) =>
      let count := toInt32 ret
      if count < 0 then
        if w1.errno = EINTR then wr_loop fuel w1 s data size
        else (-EX_OSERR, w1)
      else if count = 0 then (-EX_DATAERR, w1)
      else if count < (size : Int) then (-EX_DATAERR, w1)
      else (EX_OK, w1)

/-- The function `wr (s, data, size)`.  Every pass of the loop uses up one event of the
write script, so the script's length bounds the number of passes. -/
def wr (w : World) (s : sock) (data : Payload) (size : Nat) : Int × World :=
  wr_loop (w.ctl_wr.length + 1) w s data size

/-- Number of passes the read script allows: every pass of the loop of `rd`
uses up an event or at least one byte of it. -/
def rd_budget : List RdEvent → Nat
  | [] => 1
  | RdEvent.fail _ :: rest => rd_budget rest + 1
  | RdEvent.data bs :: rest => rd_budget rest + bs.length + 1

/-- The `do ... while (count < 0)` loop of `rd` and the checks after it; the
buffer `data` is returned with the bytes read stored at its start. -/
def rd_loop : Nat → World → sock → List Nat → Nat → Int × List Nat × World
  | 0, w, _, data, _ => (-EX_OSERR, data, w)
  | fuel + 1, w, s, data, size =>
    match sys_read w s.fd size with
    | (ret, bs, w1) =>
      let count := toInt32 ret
      let data1 := bs ++ data.drop bs.length
      if count < 0 then
        if w1.errno = EINTR then rd_loop fuel w1 s data1 size
        else (-EX_OSERR, data1, w1)
      else if count = 0 then (-EX_DATAERR, data1, w1)
      else if count < (size : Int) then (-EX_DATAERR, data1, w1)
      else (EX_OK, data1, w1)

/-- The function `rd (s, data, size)`. -/
def rd (w : World) (s : sock) (data : List Nat) (size : Nat) : Int × List Nat × World :=
  rd_loop (rd_budget w.ctl_in) w s data size

/-! ## `map_arphrd_to_dlt` -/

/-- The function `map_arphrd_to_dlt (arptype)`. -/
def map_arphrd_to_dlt (arptype : Int) : link_type :=
  if arptype = ARPHRD_ETHER ∨ arptype = ARPHRD_LOOPBACK then link_type.DLT_EN10MB
  else if arptype = ARPHRD_PPP then link_type.DLT_LINUX_SLL
  else if arptype = ARPHRD_NONE then link_type.DLT_RAW
  else link_type.DLT_UNSUPP

/-! ## `cmd_iflist` -/

/-- Modelled from the spec: the parts of `catnip.h` that `cmd.c` uses and the
spec leaves open: the shared name-length limit `CATNIP_IFNAMSIZ` and the
sizes of `struct catnip_msg` and `struct catnip_iflist`. -/
structure catnip_h where
  CATNIP_IFNAMSIZ : Nat
  sizeof_catnip_msg : Nat
  sizeof_catnip_iflist : Nat
  deriving DecidableEq, Repr

/-- A call that either fails, with the error number the kernel's `fault`
gives for it, or succeeds with result `0` and no other effect. -/
def sys_plain (w : World) (c : Call) : Int × World :=
  let w := w.log c
  match w.fault c with
  | some e => (-1, { w with errno := e })
  | none => (0, w)

/-- The call `getifaddrs (&ifaddr)`: the result and the list. -/
def sys_getifaddrs (w : World) : Int × List ifaddrs × World :=
  match sys_plain w Call.getifaddrs with
  | (rc, w1) => if rc = -1 then (-1, [], w1) else (0, w1.ifaddr, w1)

/-- The call `calloc (nmemb, size)`: whether the pointer returned is non-null. -/
def sys_calloc (w : World) (nmemb size : Nat) : Bool × World :=
  match sys_plain w (Call.calloc nmemb size) with
  | (rc, w1) => (decide (rc = 0), w1)

/-- The call `ioctl (fd, SIOCGIFHWADDR, &ifr)`: the result and
`ifr.ifr_hwaddr.sa_family`. -/
def sys_ioctl_SIOCGIFHWADDR (w : World) (fd : Int) (name : List Char) : Int × Int × World :=
  match sys_plain w (Call.ioctl_SIOCGIFHWADDR fd name) with
  | (rc, w1) =>
    if rc = -1 then (-1, 0, w1)
    else match w1.devs name with
      | none => (-1, 0, { w1 with errno := ENODEV })
      | some d => (0, d.hwtype, w1)

/-- The first loop of `cmd_iflist`, which counts into `msg.payload.iflist.num`;
`none` when `ifa->ifa_addr->sa_family` is read through a null `ifa_addr`,
which ends the process. -/
def iflist_count : List ifaddrs → Nat → Option Nat
  | [], num => some num
  | ifa :: rest, num =>
    match ifa.ifa_addr with
    | none => none
    | some addr =>
      if addr.sa_family ≠ AF_LINK then iflist_count rest num
      else if ifa.ifa_flags &&& IFF_UP = 0 then iflist_count rest num
      else iflist_count rest ((num + 1) % IFLIST_NUM_MOD)

/-- A record of the array as `calloc` leaves it; the zero `type` byte is
overwritten before the record is used. -/
def iflist_zero : catnip_iflist := { name := [], type := link_type.DLT_UNSUPP, flags := 0 }

/-- How the second loop of `cmd_iflist` ends: it runs through the list and
leaves the array and the count, or it returns early after a failed `ioctl`,
or it reads through a null `ifa_addr`, which ends the process. -/
inductive fill_result where
  | filled (iflist : List catnip_iflist) (num : Nat)
  | failed
  | crashed
  deriving DecidableEq, Repr

/-- The second loop of `cmd_iflist`, which fills `iflist [num]`. -/
def iflist_fill (L : catnip_h) (s : sock) :
    List ifaddrs → World → List catnip_iflist → Nat → fill_result × World
  | [], w, iflist, num => (fill_result.filled iflist num, w)
  | ifa :: rest, w, iflist, num =>
    match ifa.ifa_addr with
    | none => (fill_result.crashed, w)
    | some addr =>
      if addr.sa_family ≠ AF_LINK then iflist_fill L s rest w iflist num
      else if ifa.ifa_flags &&& IFF_UP = 0 then iflist_fill L s rest w iflist num
      else
        let n := min L.CATNIP_IFNAMSIZ IFNAMSIZ
        let r0 := iflist.getD num iflist_zero
        let r1 := { r0 with name := strncpy ifa.ifa_name n }
        match sys_ioctl_SIOCGIFHWADDR w s.fd (strncpy ifa.ifa_name n) with
        | (rc, family, w1) =>
          if rc = -1 then (fill_result.failed, w1)
          else
            let r2 := { r1 with type := map_arphrd_to_dlt family }
            let r3 := if ifa.ifa_flags &&& IFF_PROMISC ≠ 0
              then { r2 with flags := r2.flags ||| IFF_PROMISC } else r2
            let r4 := { r3 with flags := htonl r3.flags }
            iflist_fill L s rest w1 (iflist.set num r4) ((num + 1) % IFLIST_NUM_MOD)

/-- The local `struct catnip_msg msg` of `cmd_iflist` before it is assigned. -/
def msg_blank : catnip_msg :=
  { code := 0,
    payload := { iflist := { num := 0 },
                 mirror := { interface := none, promisc := 0, port := 0, bf_len := 0 } } }

/-- The function `cmd_iflist (s, omsg)`; `none` when the process is ended by
reading through a null `ifa_addr`. -/
def cmd_iflist (L : catnip_h) (w : World) (s : sock) (_omsg : catnip_msg) : Option Int × World :=
  let msg := msg_blank
  match sys_getifaddrs w with
  | (rc, ifaddr, w1) =>
    if rc = -1 then (some (-w1.errno), w1)
    else
      match iflist_count ifaddr 0 with
      | none => (none, w1)
      | some num =>
        match sys_calloc w1 num L.sizeof_catnip_iflist with
        | (nonnull, w2) =>
          if num ≠ 0 ∧ nonnull = false then (some (-EX_OSERR), w2)
          else
            match iflist_fill L s ifaddr w2 (List.replicate num iflist_zero) 0 with
            | (fill_result.crashed, w3) => (none, w3)
            | (fill_result.failed, w3) => (some (-EX_OSERR), w3)
            | (fill_result.filled iflist num, w3) =>
              let msg1 := { msg with payload := { msg.payload with iflist := { num := num } } }
              let msg2 := { msg1 with code := CATNIP_MSG_IFLIST }
              let w4 := (wr w3 s (Payload.msg msg2) L.sizeof_catnip_msg).2
              let w5 := if num ≠ 0
                then (wr w4 s (Payload.iflist iflist) (num * L.sizeof_catnip_iflist)).2 else w4
              (some EX_OK, w5)

/-! ## The capture socket -/

/-- Whether the capture socket queues a frame: without a filter every frame,
with a filter the frames for which the program gives a non-zero length. -/
def cap_accepts (w : World) (frame : List Nat) : Bool :=
  match w.cap_filter with
  | none => true
  | some prog => decide (w.bpf_run prog frame ≠ 0)

/-- The next batch of frames reaches the capture socket: those its filter
accepts are queued. -/
def arrive (w : World) : World :=
  match w.net with
  | [] => w
  | batch :: rest =>
    { w with net := rest, cap_queue := w.cap_queue ++ batch.filter (cap_accepts w) }

/-- A call on the capture socket that either fails, with the error number the
kernel's `fault` gives for it, or succeeds with result `0`; the next batch of
frames reaches the socket while the call is made. -/
def sys_plain_sock (w : World) (c : Call) : Int × World := sys_plain (arrive w) c

/-! ## `set_promisc` -/

/-- The call `ioctl (fd, SIOCGIFFLAGS, &ifr)`: the result and `ifr.ifr_flags`,
the low 16 bits of the device flags. -/
def sys_ioctl_SIOCGIFFLAGS (w : World) (fd : Int) (name : List Char) : Int × Nat × World :=
  match sys_plain_sock w (Call.ioctl_SIOCGIFFLAGS fd name) with
  | (rc, w1) =>
    if rc = -1 then (-1, 0, w1)
    else match w1.devs name with
      | none => (-1, 0, { w1 with errno := ENODEV })
      | some d => (0, d.flags % 2 ^ 16, w1)

/-- The call `ioctl (fd, SIOCSIFFLAGS, &ifr)`: on success the device carries
the flags given. -/
def sys_ioctl_SIOCSIFFLAGS (w : World) (fd : Int) (name : List Char) (flags : Nat) : Int × World :=
  match sys_plain_sock w (Call.ioctl_SIOCSIFFLAGS fd name flags) with
  | (rc, w1) =>
    if rc = -1 then (-1, w1)
    else match w1.devs name with
      | none => (-1, { w1 with errno := ENODEV })
      | some d =>
        (0, { w1 with devs := fun n => if n = name then some { d with flags := flags } else w1.devs n })

/-- The function `set_promisc (sock, interface, state)`. -/
def set_promisc (w : World) (sock : Int) (interface : List Char) (state : Int) : Int × World :=
  let name := strncpy interface IFNAMSIZ
  match sys_ioctl_SIOCGIFFLAGS w sock name with
  | (rc, flags, w1) =>
    if rc = -1 then (-EX_OSERR, w1)
    else if flags &&& IFF_PROMISC ≠ 0 then (0, w1)
    else
      let flags1 := if state ≠ 0 then flags ||| IFF_PROMISC else flags &&& (0xFFFF - IFF_PROMISC)
      match sys_ioctl_SIOCSIFFLAGS w1 sock name flags1 with
      | (rc, w2) => if rc = -1 then (-EX_OSERR, w2) else (1, w2)

/-! ## `open_sock` -/

/-- The lowest descriptor number that is not open, which is what a call that
creates a descriptor returns. -/
def lowest_free (fds : List Int) : Int :=
  let free : Option Nat :=
    (List.range (fds.length + 1)).find? (fun (n : Nat) => decide ((n : Int) ∉ fds))
  match free with
  | some n => Int.ofNat n
  | none => Int.ofNat fds.length

/-- A call that creates a socket: on success the lowest free descriptor, which
is then open. -/
def sys_socket (w : World) (c : Call) : Int × World :=
  match sys_plain w c with
  | (rc, w1) =>
    if rc = -1 then (-1, w1)
    else (lowest_free w1.fds, { w1 with fds := lowest_free w1.fds :: w1.fds })

/-- The call `socket (PF_PACKET, sock_type, htons (ETH_P_ALL))`: the new
capture socket has no filter and an empty receive queue. -/
def sys_socket_PF_PACKET (w : World) (raw : Bool) : Int × World :=
  match sys_socket w (Call.socket_PF_PACKET raw) with
  | (rc, w1) => if rc < 0 then (rc, w1) else (rc, { w1 with cap_filter := none, cap_queue := [] })

/-- The call `close (fd)`. -/
def sys_close (w : World) (fd : Int) : World :=
  { w.log (Call.close fd) with fds := w.fds.erase fd }

/-- Error number `EINVAL`. -/
def EINVAL : Int := 22

/-- The call `setsockopt (fd, SOL_SOCKET, SO_ATTACH_FILTER, &prog, ...)` on the
capture socket; the kernel refuses a program without instructions. -/
def sys_setsockopt_SO_ATTACH_FILTER (w : World) (fd : Int) (prog : List sock_filter) :
    Int × World :=
  match sys_plain_sock w (Call.setsockopt_SO_ATTACH_FILTER fd prog) with
  | (rc, w1) =>
    if rc = -1 then (-1, w1)
    else if prog = [] then (-1, { w1 with errno := EINVAL })
    else (0, { w1 with cap_filter := some prog })

/-- The call `recv (fd, &drain, sizeof (drain), MSG_TRUNC|MSG_DONTWAIT)` on the
capture socket: the length of the frame taken off the queue, or `-1` with
`EAGAIN` when the queue is empty. -/
def sys_recv (w : World) (fd : Int) : Int × World :=
  let w := (arrive w).log (Call.recv fd)
  match w.cap_queue with
  | [] => (-1, { w with errno := EAGAIN })
  | frame :: queue => (frame.length, { w with cap_queue := queue })

/-- The call `read (cfd, buf, size)` on the capture socket, which is
non-blocking: the frame at the head of the queue, cut to `size`. -/
def sys_read_capture (w : World) (fd : Int) (size : Nat) : Int × World :=
  let w := (arrive w).log (Call.read fd size)
  match w.cap_queue with
  | [] => (-1, { w with errno := EAGAIN })
  | frame :: queue => (min frame.length size, { w with cap_queue := queue })

/-- The call `ioctl (fd, SIOCGIFINDEX, &ifr)`: the result and `ifr.ifr_ifindex`. -/
def sys_ioctl_SIOCGIFINDEX (w : World) (fd : Int) (name : List Char) : Int × Int × World :=
  match sys_plain_sock w (Call.ioctl_SIOCGIFINDEX fd name) with
  | (rc, w1) =>
    if rc = -1 then (-1, 0, w1)
    else match w1.devs name with
      | none => (-1, 0, { w1 with errno := ENODEV })
      | some d => (0, d.ifindex, w1)

/-- File status flags `O_RDWR`, which a new socket has. -/
def O_RDWR : Nat := 2

/-- The call `fcntl (fd, F_GETFL, 0)`. -/
def sys_fcntl_F_GETFL (w : World) (fd : Int) : Int × World :=
  match sys_plain_sock w (Call.fcntl_F_GETFL fd) with
  | (rc, w1) => if rc = -1 then (-1, w1) else ((O_RDWR : Int), w1)

/-- Modelled from the spec: the layout of `struct catnip_sock_filter` in the
eight bytes `rd` stores into `fpins`, `{opcode: u16, jt: u8, jf: u8, k: u32}`
in host order (little-endian). -/
def fpins_of_bytes (bs : List Nat) : catnip_sock_filter :=
  { code := bs.getD 0 0 % 256 + 2 ^ 8 * (bs.getD 1 0 % 256),
    jt := bs.getD 2 0 % 256,
    jf := bs.getD 3 0 % 256,
    k := bs.getD 4 0 % 256 + 2 ^ 8 * (bs.getD 5 0 % 256) + 2 ^ 16 * (bs.getD 6 0 % 256)
      + 2 ^ 24 * (bs.getD 7 0 % 256) }

/-- The initialiser `BPF_STMT (code, k)` of `linux/filter.h`. -/
def BPF_STMT (code k : Nat) : sock_filter := { code := code, jt := 0, jf := 0, k := k }

/-- The local `total_insn` of `open_sock`. -/
def total_insn : sock_filter := BPF_STMT (BPF_RET ||| BPF_K) 0

/-- The local `total_fcode = { 1, &total_insn }` of `open_sock`. -/
def total_fcode : List sock_filter := [total_insn]

/-- The loop `for (i = 0; i < fp.len; i++)` of `open_sock` with `fp.len - i`
passes to go: `fpins` is the buffer, `filter` the entries of `fp.filter`
stored so far; `none` is the early return after a failed `rd`. -/
def open_sock_rd : Nat → World → sock → List Nat → List sock_filter →
    Option (List sock_filter) × World
  | 0, w, _, _, filter => (some filter, w)
  | togo + 1, w, s, fpins, filter =>
    match rd w s fpins sizeof_catnip_sock_filter with
    | (rc, fpins1, w1) =>
      if rc < 0 then (none, w1)
      else
        let ins := fpins_of_bytes fpins1
        open_sock_rd togo w1 s fpins1
          (filter ++ [{ code := ins.code, jt := ins.jt, jf := ins.jf, k := ins.k }])

/-- Number of frames queued or still to arrive, which bounds the passes of
the drain loop: every pass takes one frame off the queue. -/
def drain_budget (w : World) : Nat := w.cap_queue.length + (w.net.map List.length).sum

/-- The loop `while (recv (...) >= 0) ;` of `open_sock`. -/
def drain_loop : Nat → World → Int → World
  | 0, w, _ => w
  | fuel + 1, w, sock =>
    match sys_recv w sock with
    | (rc, w1) => if rc ≥ 0 then drain_loop fuel w1 sock else w1

/-- The part of `open_sock` under the comment "deal with socket() -> filter()
race": attach `total_fcode`, drain the queue, attach the program read from the
request; `some rc` is an early `return rc`. -/
def open_sock_attach (w : World) (sock : Int) (filter : List sock_filter) : Option Int × World :=
  match sys_setsockopt_SO_ATTACH_FILTER w sock total_fcode with
  | (rc, w1) =>
    if rc < 0 then (some (-EX_OSERR), sys_close w1 sock)
    else
      match sys_setsockopt_SO_ATTACH_FILTER (drain_loop (drain_budget w1 + 1) w1 sock) sock
          filter with
      | (rc, w2) =>
        if rc < 0 then (some (-EX_OSERR), sys_close w2 sock)
        else (none, w2)

/-- The block `if (omsg->payload.mirror.bf_len) { ... }` of `open_sock`;
`some rc` is an early `return rc`. -/
def open_sock_filter (w : World) (s : sock) (omsg : catnip_msg) (sock : Int) :
    Option Int × World :=
  if omsg.payload.mirror.bf_len ≠ 0 then
    let len := toUInt16 omsg.payload.mirror.bf_len
    match sys_calloc w len sizeof_catnip_sock_filter with
    | (nonnull, w1) =>
      if nonnull = false then (some (-EX_OSERR), w1)
      else
        match open_sock_rd len w1 s (List.replicate sizeof_catnip_sock_filter 0) [] with
        | (none, w2) => (some (-EX_SOFTWARE), w2)
        | (some filter, w2) => open_sock_attach w2 sock filter
  else (none, w)

/-- The block `if (omsg->payload.mirror.interface) { ... }` of `open_sock`;
`some rc` is an early `return rc`. -/
def open_sock_bind (L : catnip_h) (w : World) (omsg : catnip_msg) (sock : Int) (promisc : Int) :
    Option Int × World :=
  match omsg.payload.mirror.interface with
  | none => (none, w)
  | some interface =>
    match sys_ioctl_SIOCGIFINDEX w sock (strncpy interface (min IFNAMSIZ L.CATNIP_IFNAMSIZ)) with
    | (rc, ifindex, w1) =>
      if rc = -1 then (some (-EX_OSERR), sys_close w1 sock)
      else
        match sys_plain_sock w1 (Call.bind_ll sock ifindex) with
        | (rc, w2) =>
          if rc = -1 then (some (-EX_OSERR), sys_close w2 sock)
          else if promisc ≠ 0 then
            match set_promisc w2 sock interface 1 with
            | (promisc1, w3) =>
              if promisc1 < 0 then (some (-promisc1), sys_close w3 sock)
              else (none, w3)
          else (none, w2)

/-- The end of `open_sock`, which sets `O_NONBLOCK` and returns the socket. -/
def open_sock_nonblock (w : World) (sock : Int) : Int × World :=
  match sys_fcntl_F_GETFL w sock with
  | (flags, w1) =>
    if flags = -1 then (-EX_OSERR, sys_close w1 sock)
    else
      match sys_plain_sock w1 (Call.fcntl_F_SETFL sock (flags.toNat ||| O_NONBLOCK)) with
      | (rc, w2) =>
        if rc = -1 then (-EX_OSERR, sys_close w2 sock)
        else (sock, w2)

/-- The function `open_sock (s, omsg)`. -/
def open_sock (L : catnip_h) (w : World) (s : sock) (omsg : catnip_msg) : Int × World :=
  let promisc := omsg.payload.mirror.promisc
  match sys_socket_PF_PACKET w omsg.payload.mirror.interface.isSome with
  | (sock, w1) =>
    if sock < 0 then (-EX_OSERR, w1)
    else
      match open_sock_filter w1 s omsg sock with
      | (some rc, w2) => (rc, w2)
      | (none, w2) =>
        match open_sock_bind L w2 omsg sock promisc with
        | (some rc, w3) => (rc, w3)
        | (none, w3) => open_sock_nonblock w3 sock

/-! ## `cmd_mirror` -/

/-- The call `getsockname (fd, &addr, &addrlen)` on the control channel. -/
def sys_getsockname (w : World) (fd : Int) : Int × sockaddr × World :=
  match sys_plain w (Call.getsockname fd) with
  | (rc, w1) => (rc, w1.ctl_local, w1)

/-- The call `getpeername (fd, &addr, &addrlen)` on the control channel. -/
def sys_getpeername (w : World) (fd : Int) : Int × sockaddr × World :=
  match sys_plain w (Call.getpeername fd) with
  | (rc, w1) => (rc, w1.ctl_peer, w1)

/-- The macro `FD_SET (fd, &set)`; a descriptor set is the list of its members. -/
def FD_SET (fd : Int) (set : List Int) : List Int := if fd ∈ set then set else fd :: set

/-- The macro `FD_ISSET (fd, &set)`. -/
def FD_ISSET (fd : Int) (set : List Int) : Bool := decide (fd ∈ set)

/-- Number of bits of a `long`, the unit in which the kernel copies
descriptor sets. -/
def BITS_PER_LONG : Int := 64

/-- A `select (nfds, &rfds, NULL, NULL, NULL)` that waits through the script:
a moment at which none of the first `nfds` descriptors of the set is readable
leaves it waiting, and a script that ends leaves it waiting for ever (`none`).
Otherwise the result, the set afterwards, the error number set if any, and
the rest of the script.  On return the kernel has rewritten the words of the
set that hold the first `nfds` bits and left the further words alone. -/
def select_wait (nfds : Int) (rfds : List Int) :
    List SelEvent → Option (Int × List Int × Option Int × List SelEvent)
  | [] => none
  | SelEvent.fail e :: rest => some (-1, rfds, some e, rest)
  | SelEvent.ready r :: rest =>
    let hits := rfds.filter (fun fd => decide (fd < nfds) && decide (fd ∈ r))
    if hits = [] then select_wait nfds rfds rest
    else
      let words := (nfds + BITS_PER_LONG - 1) / BITS_PER_LONG
      some ((hits.length : Int),
        hits ++ rfds.filter (fun fd => decide (words * BITS_PER_LONG ≤ fd)), none, rest)

/-- The call `select (nfds, &rfds, NULL, NULL, NULL)`; `none` when it never
returns. -/
def sys_select (w : World) (nfds : Int) (rfds : List Int) : Option (Int × List Int) × World :=
  let w := w.log (Call.select nfds rfds)
  match select_wait nfds rfds w.selects with
  | none => (none, { w with selects := [] })
  | some (rc, rfds1, none, rest) => (some (rc, rfds1), { w with selects := rest })
  | some (rc, rfds1, some e, rest) => (some (rc, rfds1), { w with selects := rest, errno := e })

/-- The call `send (fd, buf, len, MSG_DONTWAIT)`, whose result `cmd_mirror`
does not look at. -/
def sys_send (w : World) (fd : Int) (len : Int) : World := w.log (Call.send fd len)

/-- The loop `while (running)` of `cmd_mirror` followed by `return EX_OK`;
`none` when the loop never ends.  Every pass uses up an event of the select
script. -/
def mirror_loop : Nat → World → sock → Int → Int → List Int → Option Int × World
  | 0, w, _, _, _, _ => (none, w)
  | fuel + 1, w, s, cfd, pfd, rfds =>
    let rfds1 := FD_SET cfd (FD_SET s.fd rfds)
    match sys_select w (cfd + 1) rfds1 with
    | (none, w1) => (none, w1)
    | (some (rc, rfds2), w1) =>
      if rc = -1 then
        if w1.errno = EINTR then mirror_loop fuel w1 s cfd pfd rfds2
        else (some EX_OK, w1)
      else if FD_ISSET s.fd rfds2 then (some EX_OK, w1)
      else if FD_ISSET cfd rfds2 then
        match sys_read_capture w1 cfd (64 * 1024) with
        | (rc1, w2) => mirror_loop fuel (sys_send w2 pfd (toInt32 rc1)) s cfd pfd rfds2
      else mirror_loop fuel w1 s cfd pfd rfds2

/-- The function `cmd_mirror (s, omsg)`; `none` when it never returns. -/
def cmd_mirror (L : catnip_h) (w : World) (s : sock) (omsg : catnip_msg) : Option Int × World :=
  match open_sock L w s omsg with
  | (cfd, w1) =>
    if cfd < 0 then (some (-cfd), w1)
    else
      match sys_getsockname w1 s.fd with
      | (rc, addr, w2) =>
        if rc < 0 then (some (-EX_OSERR), w2)
        else
          let addr1 := { addr with port := 0 }
          match sys_socket w2 (Call.socket_UDP addr1.sa_family) with
          | (pfd, w3) =>
            if pfd < 0 then (some (-EX_UNAVAILABLE), w3)
            else
              match sys_plain w3 (Call.bind pfd addr1) with
              | (rc, w4) =>
                if rc ≠ 0 then (some (-EX_UNAVAILABLE), w4)
                else
                  match sys_getpeername w4 s.fd with
                  | (rc, addr2, w5) =>
                    if rc < 0 then (some (-EX_OSERR), w5)
                    else
                      let addr3 := { addr2 with port := omsg.payload.mirror.port }
                      match sys_plain w5 (Call.connect pfd addr3) with
                      | (rc, w6) =>
                        if rc ≠ 0 then (some (-EX_UNAVAILABLE), w6)
                        else mirror_loop (w6.selects.length + 1) w6 s cfd pfd []

/-- A kernel in which nothing is open, nothing fails and nothing arrives. -/
def World.idle : World :=
  { errno := 0, fds := [0, 1, 2], fault := fun _ => none, ctl_in := [], ctl_wr := [],
    ctl_out := [], ifaddr := [], devs := fun _ => none, cap_filter := none,
    cap_queue := [], net := [],
    bpf_run := fun prog _ => match prog with
      | [] => 0
      | i :: _ => if i.code = BPF_RET ||| BPF_K then i.k else 65535,
    selects := [],
    ctl_local := { sa_family := 2, port := 22, host := 1 },
    ctl_peer := { sa_family := 2, port := 40000, host := 2 }, trace := [] }

/-- Whether an entry of the interface-address list is of the link-layer
family and administratively up. -/
def link_up (ifa : ifaddrs) : Bool :=
  match ifa.ifa_addr with
  | some addr => decide (addr.sa_family = AF_LINK) && decide (ifa.ifa_flags &&& IFF_UP ≠ 0)
  | none => false

/-- The name `cmd_iflist` copies out of an entry. -/
def iflist_name (L : catnip_h) (ifa : ifaddrs) : List Char :=
  strncpy ifa.ifa_name (min L.CATNIP_IFNAMSIZ IFNAMSIZ)

/-- The hardware type the kernel reports for a device name. -/
def hw_family (devs : List Char → Option netdev) (name : List Char) : Int :=
  match devs name with
  | some d => d.hwtype
  | none => 0

/-- The record of an entry: its name, the link type mapped from its queried
hardware type, and its promiscuous flag in network byte order. -/
def iflist_record (L : catnip_h) (devs : List Char → Option netdev) (ifa : ifaddrs) :
    catnip_iflist :=
  { name := iflist_name L ifa,
    type := map_arphrd_to_dlt (hw_family devs (iflist_name L ifa)),
    flags := htonl (if ifa.ifa_flags &&& IFF_PROMISC ≠ 0 then 0 ||| IFF_PROMISC else 0) }

/-- The entries of the kernel's interface-address list that are of the
link-layer family and up, in list order. -/
def iflist_wanted (w : World) : List ifaddrs := w.ifaddr.filter link_up

/-- The kernel once `cmd_iflist` has collected the list without a failure:
the calls made are `getifaddrs`, `calloc` for one record per wanted entry, and
one hardware-address query per wanted entry, in list order. -/
def iflist_collected (L : catnip_h) (w : World) (s : sock) : World :=
  { w with
      trace := w.trace ++ Call.getifaddrs
        :: Call.calloc (iflist_wanted w).length L.sizeof_catnip_iflist
        :: List.map (fun ifa => Call.ioctl_SIOCGIFHWADDR s.fd (iflist_name L ifa))
          (iflist_wanted w) }

/-- Sizes and limits of `catnip.h` used in the examples. -/
def catnip_h.example : catnip_h :=
  { CATNIP_IFNAMSIZ := 16, sizeof_catnip_msg := 32, sizeof_catnip_iflist := 24 }

/-- A kernel with two Ethernet interfaces, `eth0` up and `eth1` down, and a
control channel that takes what is written to it. -/
def World.two_eth : World :=
  { World.idle with
      ifaddr := [{ ifa_name := "eth0".toList, ifa_flags := 0x1043,
                   ifa_addr := some { sa_family := AF_LINK, port := 0, host := 0 } },
                 { ifa_name := "eth1".toList, ifa_flags := 0x1002,
                   ifa_addr := some { sa_family := AF_LINK, port := 0, host := 0 } },
                 { ifa_name := "eth0".toList, ifa_flags := 0x1043,
                   ifa_addr := some { sa_family := AF_INET, port := 0, host := 1 } }],
      devs := fun n =>
        if n = "eth0".toList then some { ifindex := 2, flags := 0x1043, hwtype := ARPHRD_ETHER }
        else if n = "eth1".toList then some { ifindex := 3, flags := 0x1002, hwtype := ARPHRD_ETHER }
        else none,
      ctl_wr := [WrEvent.room 4096, WrEvent.room 4096] }

/-- A kernel whose interface-address list holds `eth0`, link-layer and up, and
the tunnel `tun0`, up, for which `getifaddrs` gives a null `ifa_addr`. -/
def World.with_tun : World :=
  { World.two_eth with
      ifaddr := [{ ifa_name := "eth0".toList, ifa_flags := 0x1043,
                   ifa_addr := some { sa_family := AF_LINK, port := 0, host := 0 } },
                 { ifa_name := "tun0".toList, ifa_flags := 0x10d1, ifa_addr := none }] }

/-- The eight bytes of a filter instruction on the wire, the inverse of
`fpins_of_bytes`. -/
def fpins_bytes (r : catnip_sock_filter) : List Nat :=
  [r.code % 256, r.code / 2 ^ 8 % 256, r.jt, r.jf,
   r.k % 256, r.k / 2 ^ 8 % 256, r.k / 2 ^ 16 % 256, r.k / 2 ^ 24 % 256]

/-- Whether the fields of a filter instruction fit their widths. -/
def fpins_fits (r : catnip_sock_filter) : Prop :=
  r.code < 2 ^ 16 ∧ r.jt < 2 ^ 8 ∧ r.jf < 2 ^ 8 ∧ r.k < 2 ^ 32

/-- The kernel instruction with the fields of a wire instruction. -/
def sock_filter_of (r : catnip_sock_filter) : sock_filter :=
  { code := r.code, jt := r.jt, jf := r.jf, k := r.k }

/-- A read script that delivers the given instructions, each whole in one
call, followed by `tail`. -/
def records_then (recs : List catnip_sock_filter) (tail : List RdEvent) : List RdEvent :=
  recs.map (fun r => RdEvent.data (fpins_bytes r)) ++ tail

/-- Whether a read script fails to deliver another whole instruction: it has
ended, or its next call returns fewer than eight bytes, or fails with an
error other than `EINTR`. -/
def no_record : List RdEvent → Bool
  | [] => true
  | RdEvent.data bs :: _ => decide (bs.length < sizeof_catnip_sock_filter)
  | RdEvent.fail e :: _ => decide (e ≠ EINTR)

/-- Whether a call leaves the filter and the receive queue of the capture
socket alone: it is not a filter attachment, a receive or a read. -/
def quiet : Call → Bool
  | Call.recv _ => false
  | Call.setsockopt_SO_ATTACH_FILTER _ _ => false
  | Call.read _ _ => false
  | _ => true

/-- The kernel `w1` comes after `w` through calls that leave the filter of the
capture socket and the control-channel input alone and take nothing off the
receive queue: `m` more batches of frames have arrived and those of their
frames the filter accepts have been queued, in order of arrival. -/
def settled (w w1 : World) : Prop :=
  w1.ctl_in = w.ctl_in ∧ w1.cap_filter = w.cap_filter ∧ w1.bpf_run = w.bpf_run
    ∧ (∃ m, w1.net = w.net.drop m
        ∧ w1.cap_queue = w.cap_queue ++ ((w.net.take m).flatten).filter (cap_accepts w))
    ∧ (∃ post, w1.trace = w.trace ++ post ∧ ∀ c ∈ post, quiet c = true)

/-- What a successful attach leaves: the program is the socket's filter, the
frames of the batch that arrived before it were queued under the old filter,
and the rest of the kernel is as before. -/
def attached (w : World) (fd : Int) (prog : List sock_filter) (w1 : World) : Prop :=
  w1.cap_filter = some prog ∧ w1.cap_queue = (arrive w).cap_queue ∧ w1.net = w.net.drop 1
    ∧ w1.fault = w.fault ∧ w1.bpf_run = w.bpf_run ∧ w1.ctl_in = w.ctl_in
    ∧ w1.trace = w.trace ++ [Call.setsockopt_SO_ATTACH_FILTER fd prog]

/-- A mirror request for all interfaces, not promiscuous, to port 9000, with
the given filter length. -/
def mirror_any (bf_len : Nat) : catnip_msg :=
  { code := 2,
    payload := { iflist := { num := 0 },
                 mirror := { interface := none, promisc := 0, port := 9000, bf_len := bf_len } } }

/-- The wire instruction "return 65535", which accepts every frame. -/
def accept_insn : catnip_sock_filter := { code := 6, jt := 0, jf := 0, k := 65535 }

/-- The wire instruction "load the half word at offset 12". -/
def ldh_insn : catnip_sock_filter := { code := 0x28, jt := 0, jf := 0, k := 12 }

/-- A kernel whose control channel delivers `n` copies of `accept_insn`, each
whole in one `read`. -/
def World.flood (n : Nat) : World :=
  { World.idle with ctl_in := List.replicate n (RdEvent.data (fpins_bytes accept_insn)) }

/-- A kernel with frames on their way to the capture socket, one batch during
each call made on it: two frames before the first call, then one frame during
each of the next five calls; the control channel delivers `accept_insn`. -/
def World.busy : World :=
  { World.idle with
      ctl_in := [RdEvent.data (fpins_bytes accept_insn)],
      net := [[[1, 2, 3], [4, 5]], [[6]], [[7, 8]], [[9]], [[10, 11]], [[12]]] }

/-- A kernel with the device `eth0`, up and not promiscuous. -/
def World.eth0 : World :=
  { World.idle with
      devs := fun n => if n = "eth0".toList
        then some { ifindex := 2, flags := 0x1043, hwtype := ARPHRD_ETHER } else none }

/-- A mirror request for `eth0` in promiscuous mode, without a filter. -/
def mirror_eth0_promisc : catnip_msg :=
  { code := 2,
    payload := { iflist := { num := 0 },
                 mirror := { interface := some "eth0".toList, promisc := 1, port := 9000,
                             bf_len := 0 } } }

/-- Error number `EPERM`. -/
def EPERM : Int := 1

/-- A kernel with `eth0` in which every change of interface flags is refused. -/
def World.no_flag_change : World :=
  { World.eth0 with
      fault := fun c => match c with
        | Call.ioctl_SIOCSIFFLAGS _ _ _ => some EPERM
        | _ => none }

/-- A kernel as a forked server child sees it: the control channel is
descriptor 4 and descriptor 3, the listening socket, has been closed. -/
def World.forked (selects : List SelEvent) : World :=
  { World.idle with fds := [0, 1, 2, 4], selects := selects }

/-! ## Theorems -/

/-- C2: `map_arphrd_to_dlt` maps `ARPHRD_ETHER` and `ARPHRD_LOOPBACK` to
`DLT_EN10MB`, `ARPHRD_PPP` to `DLT_LINUX_SLL`, `ARPHRD_NONE` to `DLT_RAW`, and
every other integer to `DLT_UNSUPP`. -/
theorem map_arphrd_to_dlt_table :
    map_arphrd_to_dlt ARPHRD_ETHER = link_type.DLT_EN10MB
    ∧ map_arphrd_to_dlt ARPHRD_LOOPBACK = link_type.DLT_EN10MB
    ∧ map_arphrd_to_dlt ARPHRD_PPP = link_type.DLT_LINUX_SLL
    ∧ map_arphrd_to_dlt ARPHRD_NONE = link_type.DLT_RAW
    ∧ ∀ arptype : Int, arptype ≠ ARPHRD_ETHER → arptype ≠ ARPHRD_LOOPBACK →
        arptype ≠ ARPHRD_PPP → arptype ≠ ARPHRD_NONE →
        map_arphrd_to_dlt arptype = link_type.DLT_UNSUPP := by
  refine ⟨by decide, by decide, by decide, by decide, ?_⟩
  intro arptype h1 h2 h3 h4
  simp [map_arphrd_to_dlt, h1, h2, h3, h4]

/-- Witness of C2: hardware type 6 (IEEE 802) is none of the four and maps to
`DLT_UNSUPP`. -/
theorem map_arphrd_to_dlt_table_witness : map_arphrd_to_dlt 6 = link_type.DLT_UNSUPP :=
  map_arphrd_to_dlt_table.2.2.2.2 6 (by decide) (by decide) (by decide) (by decide)

theorem toInt32_of_lt (n : Nat) (h : n < 2 ^ 31) : toInt32 (n : Int) = (n : Int) := by
  unfold toInt32
  omega

theorem rd_loop_full (s : sock) (data src : List Nat) (rest : List RdEvent) (N : Nat)
    (hN : 0 < N) (hN31 : N < 2 ^ 31) (hsrc : src.length = N) :
    ∀ (j fuel : Nat) (w : World), j < fuel →
      w.ctl_in = List.replicate j (RdEvent.fail EINTR) ++ RdEvent.data src :: rest →
      ∃ e, rd_loop fuel w s data N
        = (EX_OK, src ++ data.drop N,
            { w with errno := e, ctl_in := rest,
                     trace := w.trace ++ List.replicate (j + 1) (Call.read s.fd N) }) := by
  intro j
  induction j with
  | zero =>
    intro fuel w hf hin
    obtain ⟨fuel, rfl⟩ : ∃ k, fuel = k + 1 := ⟨fuel - 1, by omega⟩
    refine ⟨w.errno, ?_⟩
    have h31 : toInt32 (N : Int) = (N : Int) := toInt32_of_lt N hN31
    simp only [List.replicate_zero, List.nil_append] at hin
    have h0 : ¬ ((N : Int) < 0) := by omega
    have h1 : N ≠ 0 := by omega
    simp [rd_loop, sys_read, World.log, hin, hsrc, h31, EX_OK, h0, h1]
  | succ j ih =>
    intro fuel w hf hin
    obtain ⟨fuel, rfl⟩ : ∃ k, fuel = k + 1 := ⟨fuel - 1, by omega⟩
    have hin1 : w.ctl_in = RdEvent.fail EINTR
        :: (List.replicate j (RdEvent.fail EINTR) ++ RdEvent.data src :: rest) := by
      rw [hin, List.replicate_succ, List.cons_append]
    obtain ⟨e, he⟩ := ih fuel
      { w with errno := EINTR, trace := w.trace ++ [Call.read s.fd N],
               ctl_in := List.replicate j (RdEvent.fail EINTR) ++ RdEvent.data src :: rest }
      (by omega) rfl
    refine ⟨e, ?_⟩
    have hneg : toInt32 (-1) < 0 := by decide
    simp only [rd_loop, sys_read, World.log, hin1, hneg, if_true, List.nil_append,
      List.length_nil, List.drop_zero]
    rw [he]
    simp [List.replicate_succ]

theorem promisc_bit_mod (x : Nat) : x % 2 ^ 16 &&& IFF_PROMISC = x &&& IFF_PROMISC := by
  have h8 : IFF_PROMISC = 2 ^ 8 := by decide
  rw [h8]
  apply Nat.eq_of_testBit_eq
  intro i
  simp only [Nat.testBit_and, Nat.testBit_mod_two_pow, Nat.testBit_two_pow]
  by_cases h : 8 = i
  · subst h; simp
  · simp [h]

theorem promisc_bit_set (x : Nat) : (x ||| IFF_PROMISC) &&& IFF_PROMISC = IFF_PROMISC := by
  have h8 : IFF_PROMISC = 2 ^ 8 := by decide
  rw [h8]
  apply Nat.eq_of_testBit_eq
  intro i
  simp only [Nat.testBit_and, Nat.testBit_or, Nat.testBit_two_pow]
  by_cases h : 8 = i
  · subst h; simp
  · simp [h]

theorem arrive_eq (w : World) :
    ∃ q, arrive w = { w with net := w.net.drop 1, cap_queue := w.cap_queue ++ q }
      ∧ q.length ≤ ((w.net.take 1).map List.length).sum := by
  unfold arrive
  cases h : w.net with
  | nil =>
    refine ⟨[], ?_, by simp⟩
    simp only [List.drop_nil, List.append_nil]
    rw [← h]
  | cons batch rest =>
    refine ⟨batch.filter (cap_accepts w), by simp, ?_⟩
    simpa using List.length_filter_le _ _

theorem sys_plain_sock_ok (w : World) (c : Call) (hf : w.fault c = none) :
    ∃ w1, sys_plain_sock w c = (0, w1) ∧ w1.fault = w.fault ∧ w1.devs = w.devs
      ∧ w1.trace = w.trace ++ [c] := by
  obtain ⟨q, hq, _⟩ := arrive_eq w
  simp [sys_plain_sock, sys_plain, World.log, hq, hf]

theorem set_promisc_sets (w : World) (sock : Int) (interface : List Char) (d : netdev)
    (hdev : w.devs (strncpy interface IFNAMSIZ) = some d)
    (hoff : d.flags % 2 ^ 16 &&& IFF_PROMISC = 0)
    (hget : w.fault (Call.ioctl_SIOCGIFFLAGS sock (strncpy interface IFNAMSIZ)) = none)
    (hset : w.fault (Call.ioctl_SIOCSIFFLAGS sock (strncpy interface IFNAMSIZ)
      (d.flags % 2 ^ 16 ||| IFF_PROMISC)) = none) :
    ∃ w1, set_promisc w sock interface 1 = (1, w1) ∧ w1.fault = w.fault
      ∧ w1.devs (strncpy interface IFNAMSIZ)
          = some { d with flags := d.flags % 2 ^ 16 ||| IFF_PROMISC }
      ∧ w1.trace = w.trace ++
          [Call.ioctl_SIOCGIFFLAGS sock (strncpy interface IFNAMSIZ),
           Call.ioctl_SIOCSIFFLAGS sock (strncpy interface IFNAMSIZ)
             (d.flags % 2 ^ 16 ||| IFF_PROMISC)] := by
  obtain ⟨wa, ha, hfa, hda, hta⟩ := sys_plain_sock_ok w _ hget
  obtain ⟨wb, hb, hfb, hdb, htb⟩ := sys_plain_sock_ok wa
    (Call.ioctl_SIOCSIFFLAGS sock (strncpy interface IFNAMSIZ)
      (d.flags % 2 ^ 16 ||| IFF_PROMISC)) (by rw [hfa]; exact hset)
  have hdeva : wa.devs (strncpy interface IFNAMSIZ) = some d := by rw [hda]; exact hdev
  have hdevb : wb.devs (strncpy interface IFNAMSIZ) = some d := by rw [hdb]; exact hdeva
  have h01 : ¬ ((0 : Int) = -1) := by decide
  have h10 : ¬ ((1 : Int) = 0) := by decide
  refine ⟨{ wb with
              devs := fun n =>
                if n = strncpy interface IFNAMSIZ
                  then some { d with flags := d.flags % 2 ^ 16 ||| IFF_PROMISC }
                  else wb.devs n },
    ?_, hfb.trans hfa, ?_, ?_⟩
  · simp only [set_promisc, sys_ioctl_SIOCGIFFLAGS, ha, h01, if_false, hdeva, hoff, ne_eq,
      not_true_eq_false, h10, not_false_eq_true, if_true, sys_ioctl_SIOCSIFFLAGS, hb, hdevb]
  · simp
  · show wb.trace = _
    rw [htb, hta]
    simp

theorem set_promisc_keeps (w : World) (sock : Int) (interface : List Char) (d : netdev)
    (hdev : w.devs (strncpy interface IFNAMSIZ) = some d)
    (hon : d.flags % 2 ^ 16 &&& IFF_PROMISC ≠ 0)
    (hget : w.fault (Call.ioctl_SIOCGIFFLAGS sock (strncpy interface IFNAMSIZ)) = none) :
    ∃ w1, set_promisc w sock interface 1 = (0, w1) ∧ w1.devs = w.devs
      ∧ w1.trace = w.trace ++ [Call.ioctl_SIOCGIFFLAGS sock (strncpy interface IFNAMSIZ)] := by
  obtain ⟨wa, ha, hfa, hda, hta⟩ := sys_plain_sock_ok w _ hget
  have hdeva : wa.devs (strncpy interface IFNAMSIZ) = some d := by rw [hda]; exact hdev
  have h01 : ¬ ((0 : Int) = -1) := by decide
  refine ⟨wa, ?_, hda, hta⟩
  simp only [set_promisc, sys_ioctl_SIOCGIFFLAGS, ha, h01, if_false, hdeva, hon, ne_eq,
    not_false_eq_true, if_true]

/-- C6: for an interface that is not promiscuous at first and whose flag
ioctls succeed, two calls `set_promisc (sock, interface, 1)` in a row set the
flag once: the first call returns 1, the second returns 0, the calls made are
one flag read, one flag write with `IFF_PROMISC` added, and one more flag
read, and the interface is promiscuous afterwards. -/
theorem set_promisc_twice (w : World) (sock : Int) (interface : List Char) (d : netdev)
    (hdev : w.devs (strncpy interface IFNAMSIZ) = some d)
    (hoff : d.flags &&& IFF_PROMISC = 0)
    (hget : w.fault (Call.ioctl_SIOCGIFFLAGS sock (strncpy interface IFNAMSIZ)) = none)
    (hset : ∀ flags,
      w.fault (Call.ioctl_SIOCSIFFLAGS sock (strncpy interface IFNAMSIZ) flags) = none) :
    (set_promisc w sock interface 1).1 = 1
    ∧ (set_promisc (set_promisc w sock interface 1).2 sock interface 1).1 = 0
    ∧ (set_promisc (set_promisc w sock interface 1).2 sock interface 1).2.trace
        = w.trace ++
          [Call.ioctl_SIOCGIFFLAGS sock (strncpy interface IFNAMSIZ),
           Call.ioctl_SIOCSIFFLAGS sock (strncpy interface IFNAMSIZ)
             (d.flags % 2 ^ 16 ||| IFF_PROMISC),
           Call.ioctl_SIOCGIFFLAGS sock (strncpy interface IFNAMSIZ)]
    ∧ ∃ d1, (set_promisc (set_promisc w sock interface 1).2 sock interface 1).2.devs
          (strncpy interface IFNAMSIZ) = some d1
        ∧ d1.flags &&& IFF_PROMISC ≠ 0 := by
  have hoff1 : d.flags % 2 ^ 16 &&& IFF_PROMISC = 0 := by
    rw [promisc_bit_mod]
    exact hoff
  have hon1 : (d.flags % 2 ^ 16 ||| IFF_PROMISC) &&& IFF_PROMISC ≠ 0 := by
    rw [promisc_bit_set]
    decide
  have hon : (d.flags % 2 ^ 16 ||| IFF_PROMISC) % 2 ^ 16 &&& IFF_PROMISC ≠ 0 := by
    rw [promisc_bit_mod]
    exact hon1
  obtain ⟨w1, h1, hf1, hd1, ht1⟩ := set_promisc_sets w sock interface d hdev hoff1 hget (hset _)
  obtain ⟨w2, h2, hd2, ht2⟩ := set_promisc_keeps w1 sock interface
    { d with flags := d.flags % 2 ^ 16 ||| IFF_PROMISC } hd1 hon (by rw [hf1]; exact hget)
  rw [h1]
  dsimp only
  rw [h2]
  refine ⟨rfl, rfl, ?_, { d with flags := d.flags % 2 ^ 16 ||| IFF_PROMISC }, ?_, hon1⟩
  · show w2.trace = _
    rw [ht2, ht1]
    simp
  · show w2.devs _ = _
    rw [hd2]
    exact hd1

/-- Witness of C6: on `eth0` with flags `0x1043` the first call returns 1 and
the second 0. -/
theorem set_promisc_twice_witness :
    (set_promisc World.eth0 3 "eth0".toList 1).1 = 1
    ∧ (set_promisc (set_promisc World.eth0 3 "eth0".toList 1).2 3 "eth0".toList 1).1 = 0 :=
  have h := set_promisc_twice World.eth0 3 "eth0".toList
    { ifindex := 2, flags := 0x1043, hwtype := ARPHRD_ETHER }
    (by decide) (by decide) rfl (fun _ => rfl)
  ⟨h.1, h.2.1⟩

theorem link_up_of_addr (ifa : ifaddrs) (addr : sockaddr) (h : ifa.ifa_addr = some addr) :
    link_up ifa
      = (decide (addr.sa_family = AF_LINK) && decide (ifa.ifa_flags &&& IFF_UP ≠ 0)) := by
  simp [link_up, h]

theorem iflist_count_eq (l : List ifaddrs) :
    ∀ k, (∀ ifa ∈ l, ifa.ifa_addr.isSome = true) →
      k + (l.filter link_up).length < IFLIST_NUM_MOD →
      iflist_count l k = some (k + (l.filter link_up).length) := by
  induction l with
  | nil => intro k _ _; simp [iflist_count]
  | cons ifa rest ih =>
    intro k hnn hk
    have hrest : ∀ a ∈ rest, a.ifa_addr.isSome = true :=
      fun a ha => hnn a (List.mem_cons_of_mem _ ha)
    obtain ⟨addr, haddr⟩ := Option.isSome_iff_exists.mp (hnn ifa (List.mem_cons_self _ _))
    have hlu := link_up_of_addr ifa addr haddr
    by_cases hfam : addr.sa_family = AF_LINK
    · by_cases hup : ifa.ifa_flags &&& IFF_UP = 0
      · have hl : link_up ifa = false := by simp [hlu, hup]
        simp only [List.filter_cons, hl] at hk ⊢
        simp only [iflist_count, haddr, hfam, hup, ne_eq, not_true_eq_false, if_false, if_true]
        exact ih k hrest hk
      · have hl : link_up ifa = true := by simp [hlu, hfam, hup]
        simp only [List.filter_cons, hl, if_true, List.length_cons] at hk ⊢
        simp only [iflist_count, haddr, hfam, hup, ne_eq, not_true_eq_false, if_false]
        have hmod : (k + 1) % IFLIST_NUM_MOD = k + 1 := Nat.mod_eq_of_lt (by omega)
        rw [hmod, ih (k + 1) hrest (by omega)]
        congr 1
        omega
    · have hl : link_up ifa = false := by simp [hlu, hfam]
      simp only [List.filter_cons, hl] at hk ⊢
      simp only [iflist_count, haddr, hfam, ne_eq, not_false_eq_true, if_true]
      exact ih k hrest hk

theorem set_after_prefix {α : Type} (done : List α) (x y : α) (tail : List α) :
    (done ++ x :: tail).set done.length y = (done ++ [y]) ++ tail := by
  induction done with
  | nil => simp
  | cons a done ih => simp [ih]

theorem getD_after_prefix {α : Type} (done : List α) (x d : α) (tail : List α) :
    (done ++ x :: tail).getD done.length d = x := by
  induction done with
  | nil => simp
  | cons a done ih => simpa using ih

theorem sys_ioctl_SIOCGIFHWADDR_ok (w : World) (fd : Int) (name : List Char) (d : netdev)
    (hf : w.fault (Call.ioctl_SIOCGIFHWADDR fd name) = none) (hd : w.devs name = some d) :
    sys_ioctl_SIOCGIFHWADDR w fd name
      = (0, d.hwtype, { w with trace := w.trace ++ [Call.ioctl_SIOCGIFHWADDR fd name] }) := by
  simp [sys_ioctl_SIOCGIFHWADDR, sys_plain, World.log, hf, hd]

theorem iflist_fill_eq (L : catnip_h) (s : sock) (l : List ifaddrs) :
    ∀ (w : World) (done : List catnip_iflist),
      (∀ ifa ∈ l, ifa.ifa_addr.isSome = true) →
      done.length + (l.filter link_up).length < IFLIST_NUM_MOD →
      (∀ ifa ∈ l, link_up ifa = true →
        w.fault (Call.ioctl_SIOCGIFHWADDR s.fd (iflist_name L ifa)) = none
          ∧ (w.devs (iflist_name L ifa)).isSome = true) →
      iflist_fill L s l w
          (done ++ List.replicate (l.filter link_up).length iflist_zero) done.length
        = (fill_result.filled (done ++ (l.filter link_up).map (iflist_record L w.devs))
             (done.length + (l.filter link_up).length),
           { w with
               trace := w.trace ++ List.map
                 (fun ifa => Call.ioctl_SIOCGIFHWADDR s.fd (iflist_name L ifa))
                 (l.filter link_up) }) := by
  induction l with
  | nil => intro w done _ _ _; simp [iflist_fill]
  | cons ifa rest ih =>
    intro w done hnn hk hq
    have hrest : ∀ ifa ∈ rest, link_up ifa = true →
        w.fault (Call.ioctl_SIOCGIFHWADDR s.fd (iflist_name L ifa)) = none
          ∧ (w.devs (iflist_name L ifa)).isSome = true :=
      fun a ha => hq a (List.mem_cons_of_mem _ ha)
    have hnnrest : ∀ a ∈ rest, a.ifa_addr.isSome = true :=
      fun a ha => hnn a (List.mem_cons_of_mem _ ha)
    obtain ⟨addr, haddr⟩ := Option.isSome_iff_exists.mp (hnn ifa (List.mem_cons_self _ _))
    have hlu := link_up_of_addr ifa addr haddr
    by_cases hfam : addr.sa_family = AF_LINK
    · by_cases hup : ifa.ifa_flags &&& IFF_UP = 0
      · have hl : link_up ifa = false := by simp [hlu, hup]
        simp only [List.filter_cons, hl] at hk ⊢
        simp only [iflist_fill, haddr, hfam, hup, ne_eq, not_true_eq_false, if_false, if_true]
        exact ih w done hnnrest hk hrest
      · have hl : link_up ifa = true := by simp [hlu, hfam, hup]
        obtain ⟨hf, hd⟩ := hq ifa (List.mem_cons_self _ _) hl
        obtain ⟨d, hd⟩ := Option.isSome_iff_exists.mp hd
        simp only [List.filter_cons, hl, if_true, List.length_cons, List.map_cons] at hk ⊢
        have hmod : (done.length + 1) % IFLIST_NUM_MOD = done.length + 1 :=
          Nat.mod_eq_of_lt (by omega)
        have hname : strncpy ifa.ifa_name (min L.CATNIP_IFNAMSIZ IFNAMSIZ) = iflist_name L ifa :=
          rfl
        have hstep := ih
          { w with trace := w.trace ++ [Call.ioctl_SIOCGIFHWADDR s.fd (iflist_name L ifa)] }
          (done ++ [iflist_record L w.devs ifa]) hnnrest (by simp; omega) hrest
        simp only [List.length_append, List.length_singleton] at hstep
        have hio := sys_ioctl_SIOCGIFHWADDR_ok w s.fd (iflist_name L ifa) d hf hd
        have h01 : ¬ ((0 : Int) = -1) := by decide
        simp only [iflist_fill, haddr, hfam, hup, ne_eq, not_true_eq_false, if_false, hname, hio,
          List.replicate_succ, getD_after_prefix, set_after_prefix, hmod, h01]
        have hfin : ∀ R : catnip_iflist, R = iflist_record L w.devs ifa →
            iflist_fill L s rest
              { w with trace := w.trace ++ [Call.ioctl_SIOCGIFHWADDR s.fd (iflist_name L ifa)] }
              (done ++ [R] ++ List.replicate (rest.filter link_up).length iflist_zero)
              (done.length + 1)
            = (fill_result.filled (done ++ iflist_record L w.devs ifa
                  :: List.map (iflist_record L w.devs) (rest.filter link_up))
                (done.length + ((rest.filter link_up).length + 1)),
              { w with
                  trace := w.trace ++ Call.ioctl_SIOCGIFHWADDR s.fd (iflist_name L ifa)
                    :: List.map (fun ifa => Call.ioctl_SIOCGIFHWADDR s.fd (iflist_name L ifa))
                      (rest.filter link_up) }) := by
          intro R hR
          rw [hR, hstep]
          simp [Nat.add_assoc, Nat.add_comm 1]
        apply hfin
        by_cases hp : ifa.ifa_flags &&& IFF_PROMISC = 0 <;>
          simp [iflist_record, hw_family, hd, hp, iflist_zero]
    · have hl : link_up ifa = false := by simp [hlu, hfam]
      simp only [List.filter_cons, hl] at hk ⊢
      simp only [iflist_fill, haddr, hfam, ne_eq, not_false_eq_true, if_true]
      exact ih w done hnnrest hk hrest

/-- The response of `cmd_iflist` on a list all of whose entries carry an
address: when `getifaddrs`, the allocation and every hardware-address query
succeed (and the wanted entries are fewer than the count field can hold),
`cmd_iflist` hands to `wr` a header with the code `CATNIP_MSG_IFLIST` and, as
its count, the number of entries of the list that are of the link-layer family
and up, and then, only when that count is not zero, the record array, which
holds one record per such entry, in list order, with that entry's name as
copied into the name field, the link type mapped from its queried hardware
type, and its promiscuous flag in network byte order. -/
theorem cmd_iflist_response (L : catnip_h) (w : World) (s : sock) (omsg : catnip_msg)
    (hget : w.fault Call.getifaddrs = none)
    (hnn : ∀ ifa ∈ w.ifaddr, ifa.ifa_addr.isSome = true)
    (hlen : (iflist_wanted w).length < IFLIST_NUM_MOD)
    (halloc : w.fault (Call.calloc (iflist_wanted w).length L.sizeof_catnip_iflist) = none)
    (hhw : ∀ ifa ∈ w.ifaddr, link_up ifa = true →
      w.fault (Call.ioctl_SIOCGIFHWADDR s.fd (iflist_name L ifa)) = none
        ∧ (w.devs (iflist_name L ifa)).isSome = true) :
    cmd_iflist L w s omsg
      = (some EX_OK,
          if (iflist_wanted w).length ≠ 0 then
            (wr (wr (iflist_collected L w s) s
                  (Payload.msg
                    { code := CATNIP_MSG_IFLIST,
                      payload := { iflist := { num := (iflist_wanted w).length },
                                   mirror := msg_blank.payload.mirror } })
                  L.sizeof_catnip_msg).2
                s (Payload.iflist ((iflist_wanted w).map (fun ifa =>
                    ({ name := strncpy ifa.ifa_name (min L.CATNIP_IFNAMSIZ IFNAMSIZ),
                       type := map_arphrd_to_dlt (hw_family w.devs
                         (strncpy ifa.ifa_name (min L.CATNIP_IFNAMSIZ IFNAMSIZ))),
                       flags := htonl (if ifa.ifa_flags &&& IFF_PROMISC ≠ 0
                         then IFF_PROMISC else 0) } : catnip_iflist))))
                ((iflist_wanted w).length * L.sizeof_catnip_iflist)).2
          else
            (wr (iflist_collected L w s) s
              (Payload.msg
                { code := CATNIP_MSG_IFLIST,
                  payload := { iflist := { num := (iflist_wanted w).length },
                               mirror := msg_blank.payload.mirror } })
              L.sizeof_catnip_msg).2) := by
  have hrec : (fun ifa =>
      ({ name := strncpy ifa.ifa_name (min L.CATNIP_IFNAMSIZ IFNAMSIZ),
         type := map_arphrd_to_dlt (hw_family w.devs
           (strncpy ifa.ifa_name (min L.CATNIP_IFNAMSIZ IFNAMSIZ))),
         flags := htonl (if ifa.ifa_flags &&& IFF_PROMISC ≠ 0
           then IFF_PROMISC else 0) } : catnip_iflist)) = iflist_record L w.devs := by
    funext ifa
    simp [iflist_record, iflist_name]
  rw [hrec]
  have hcount : iflist_count w.ifaddr 0 = some (iflist_wanted w).length := by
    have h := iflist_count_eq w.ifaddr 0 hnn (by simpa [iflist_wanted] using hlen)
    simpa [iflist_wanted] using h
  have hfill := iflist_fill_eq L s w.ifaddr
    { w with trace := w.trace ++ [Call.getifaddrs,
        Call.calloc (iflist_wanted w).length L.sizeof_catnip_iflist] }
    [] hnn (by simpa [iflist_wanted] using hlen) hhw
  simp only [List.nil_append, List.length_nil, Nat.zero_add] at hfill
  have h01 : ¬ ((0 : Int) = -1) := by decide
  simp only [cmd_iflist, sys_getifaddrs, sys_calloc, sys_plain, World.log, hget, hcount,
    halloc, h01, if_false]
  simp only [iflist_wanted] at hfill ⊢
  simp only [List.append_assoc, List.singleton_append, List.cons_append, List.nil_append,
    decide_True, Bool.true_eq_false, and_false, if_false, hfill, iflist_collected, iflist_wanted]

/-- The response of `cmd_iflist` with one up Ethernet interface `eth0` and one
down interface `eth1`: a header with code 1 and count 1 and one record with
name `eth0` and link type Ethernet. -/
theorem cmd_iflist_response_two_eth :
    (cmd_iflist catnip_h.example World.two_eth ⟨1⟩ msg_blank).2.ctl_out
      = [(Payload.msg
            { code := 1,
              payload := { iflist := { num := 1 },
                           mirror := { interface := none, promisc := 0, port := 0,
                                       bf_len := 0 } } }, 32),
         (Payload.iflist
            [{ name := "eth0".toList, type := link_type.DLT_EN10MB, flags := 0 }], 24)] := by
  rw [cmd_iflist_response catnip_h.example World.two_eth ⟨1⟩ msg_blank
    (by decide) (by decide) (by decide) (by decide) (by decide)]
  decide

/-- C3, the code at the failing input: the interface-address list holds
`eth0`, link-layer and up, and `tun0`, whose `ifa_addr` is null.  The first
loop of `cmd_iflist` reads `ifa->ifa_addr->sa_family` through the null pointer:
the process ends without a return value, after `getifaddrs` and before any
call to `wr`, and no header and no record reach the control channel. -/
theorem cmd_iflist_null_addr :
    (cmd_iflist catnip_h.example World.with_tun ⟨1⟩ msg_blank).1 = none
    ∧ (cmd_iflist catnip_h.example World.with_tun ⟨1⟩ msg_blank).2.trace = [Call.getifaddrs]
    ∧ (cmd_iflist catnip_h.example World.with_tun ⟨1⟩ msg_blank).2.ctl_out = [] := by
  decide

/-- C9, the code at the failing input: with `eth0` up and a control channel
whose first `write` fails with `EPIPE`, the header `wr` returns `-EX_OSERR`,
nothing reaches the channel, and `cmd_iflist` still returns `EX_OK`. -/
theorem cmd_iflist_ignores_wr_failure :
    (wr (iflist_collected catnip_h.example
          { World.two_eth with ctl_wr := [WrEvent.fail EPIPE] } ⟨1⟩) ⟨1⟩
        (Payload.msg
          { code := 1,
            payload := { iflist := { num := 1 },
                         mirror := { interface := none, promisc := 0, port := 0,
                                     bf_len := 0 } } }) 32).1 = -EX_OSERR
    ∧ (cmd_iflist catnip_h.example { World.two_eth with ctl_wr := [WrEvent.fail EPIPE] }
        ⟨1⟩ msg_blank).1 = some EX_OK
    ∧ (cmd_iflist catnip_h.example { World.two_eth with ctl_wr := [WrEvent.fail EPIPE] }
        ⟨1⟩ msg_blank).2.ctl_out = []
    ∧ (cmd_iflist catnip_h.example { World.two_eth with ctl_wr := [WrEvent.fail EPIPE] }
        ⟨1⟩ msg_blank).2.trace.getLast?
        = some (Call.write 1 (Payload.iflist
            [{ name := "eth0".toList, type := link_type.DLT_EN10MB, flags := 0 }]) 24) := by
  decide

theorem fpins_roundtrip (r : catnip_sock_filter) (hr : fpins_fits r) :
    fpins_of_bytes (fpins_bytes r) = r := by
  obtain ⟨h1, h2, h3, h4⟩ := hr
  cases r with
  | mk code jt jf k =>
    simp only [fpins_of_bytes, fpins_bytes, List.getD_cons_zero, List.getD_cons_succ] at *
    simp only [catnip_sock_filter.mk.injEq]
    refine ⟨by omega, by omega, by omega, by omega⟩

theorem rd_budget_pos (l : List RdEvent) : 0 < rd_budget l := by
  cases l with
  | nil => simp [rd_budget]
  | cons ev l => cases ev <;> simp [rd_budget]

theorem rd_record (w : World) (s : sock) (fpins : List Nat) (r : catnip_sock_filter)
    (rest : List RdEvent) (hlen : fpins.length = sizeof_catnip_sock_filter)
    (hin : w.ctl_in = RdEvent.data (fpins_bytes r) :: rest) :
    ∃ e, rd w s fpins sizeof_catnip_sock_filter
      = (EX_OK, fpins_bytes r,
          { w with errno := e, ctl_in := rest,
                   trace := w.trace ++ [Call.read s.fd sizeof_catnip_sock_filter] }) := by
  obtain ⟨e, he⟩ := rd_loop_full s fpins (fpins_bytes r) rest sizeof_catnip_sock_filter
    (by decide) (by decide) rfl 0 (rd_budget w.ctl_in) w (rd_budget_pos _) (by simpa using hin)
  refine ⟨e, ?_⟩
  unfold rd
  rw [he]
  have hdrop : List.drop sizeof_catnip_sock_filter fpins = [] := by
    rw [List.drop_eq_nil_iff]
    omega
  simp [hdrop]

theorem open_sock_rd_records (s : sock) (tail : List RdEvent) (recs : List catnip_sock_filter) :
    ∀ (w : World) (fpins : List Nat) (filter : List sock_filter),
      fpins.length = sizeof_catnip_sock_filter →
      (∀ r ∈ recs, fpins_fits r) →
      w.ctl_in = records_then recs tail →
      ∃ e, open_sock_rd recs.length w s fpins filter
        = (some (filter ++ recs.map sock_filter_of),
            { w with errno := e, ctl_in := tail,
                     trace := w.trace ++ List.replicate recs.length
                       (Call.read s.fd sizeof_catnip_sock_filter) }) := by
  induction recs with
  | nil =>
    intro w fpins filter _ _ hin
    refine ⟨w.errno, ?_⟩
    simp only [records_then, List.map_nil, List.nil_append] at hin
    simp [open_sock_rd, ← hin]
  | cons r recs ih =>
    intro w fpins filter hlen hfit hin
    obtain ⟨e1, h1⟩ := rd_record w s fpins r (records_then recs tail) hlen
      (by simpa [records_then] using hin)
    obtain ⟨e, he⟩ := ih
      { w with errno := e1, ctl_in := records_then recs tail,
               trace := w.trace ++ [Call.read s.fd sizeof_catnip_sock_filter] }
      (fpins_bytes r) (filter ++ [sock_filter_of r]) rfl
      (fun a ha => hfit a (List.mem_cons_of_mem _ ha)) rfl
    refine ⟨e, ?_⟩
    have hrt := fpins_roundtrip r (hfit r (List.mem_cons_self _ _))
    have hok : ¬ (EX_OK < 0) := by decide
    simp only [List.length_cons, open_sock_rd, h1, hok, if_false, hrt]
    have hsf : ({ code := r.code, jt := r.jt, jf := r.jf, k := r.k } : sock_filter)
        = sock_filter_of r := rfl
    rw [hsf, he]
    simp [List.replicate_succ]

theorem rd_no_record (w : World) (s : sock) (fpins : List Nat)
    (hbad : no_record w.ctl_in = true) :
    (rd w s fpins sizeof_catnip_sock_filter).1 < 0 := by
  obtain ⟨fuel, hfuel⟩ : ∃ k, rd_budget w.ctl_in = k + 1 :=
    ⟨rd_budget w.ctl_in - 1, by have := rd_budget_pos w.ctl_in; omega⟩
  unfold rd
  rw [hfuel]
  cases hin : w.ctl_in with
  | nil =>
    have h0 : toInt32 0 = 0 := by decide
    simp [rd_loop, sys_read, World.log, hin, h0, EX_DATAERR]
  | cons ev rest =>
    rw [hin] at hbad
    cases ev with
    | fail e =>
      have he : e ≠ EINTR := by simpa [no_record] using hbad
      have hneg : toInt32 (-1) < 0 := by decide
      simp [rd_loop, sys_read, World.log, hin, hneg, he, EX_OSERR]
    | data bs =>
      have hb : bs.length < 8 := by simpa [no_record, sizeof_catnip_sock_filter] using hbad
      have h31 : toInt32 (bs.length : Int) = (bs.length : Int) :=
        toInt32_of_lt _ (by omega)
      have hle : bs.length ≤ sizeof_catnip_sock_filter := by
        simp only [sizeof_catnip_sock_filter]; omega
      have hnn : ¬ ((bs.length : Int) < 0) := by omega
      have hlt : (bs.length : Int) < (sizeof_catnip_sock_filter : Int) := by
        simp only [sizeof_catnip_sock_filter]; omega
      simp only [rd_loop, sys_read, World.log, hin, hle, if_true, h31, hnn, if_false, hlt]
      split <;> simp [EX_DATAERR]

theorem open_sock_rd_short (s : sock) (tail : List RdEvent) (recs : List catnip_sock_filter) :
    ∀ (togo : Nat) (w : World) (fpins : List Nat) (filter : List sock_filter),
      recs.length < togo →
      fpins.length = sizeof_catnip_sock_filter →
      (∀ r ∈ recs, fpins_fits r) →
      w.ctl_in = records_then recs tail →
      no_record tail = true →
      (open_sock_rd togo w s fpins filter).1 = none := by
  induction recs with
  | nil =>
    intro togo w fpins filter hlt _ _ hin hbad
    obtain ⟨togo, rfl⟩ : ∃ k, togo = k + 1 := ⟨togo - 1, by simp at hlt; omega⟩
    simp only [records_then, List.map_nil, List.nil_append] at hin
    have hneg := rd_no_record w s fpins (by rw [hin]; exact hbad)
    simp only [open_sock_rd, hneg, if_true]
  | cons r recs ih =>
    intro togo w fpins filter hlt hlen hfit hin hbad
    obtain ⟨togo, rfl⟩ : ∃ k, togo = k + 1 := ⟨togo - 1, by simp at hlt; omega⟩
    obtain ⟨e1, h1⟩ := rd_record w s fpins r (records_then recs tail) hlen
      (by simpa [records_then] using hin)
    have hok : ¬ (EX_OK < 0) := by decide
    simp only [open_sock_rd, h1, hok, if_false]
    exact ih togo _ _ _ (by simp at hlt; omega) rfl
      (fun a ha => hfit a (List.mem_cons_of_mem _ ha)) rfl hbad

theorem cap_accepts_congr (w w1 : World) (hf : w1.cap_filter = w.cap_filter)
    (hb : w1.bpf_run = w.bpf_run) : cap_accepts w1 = cap_accepts w := by
  funext frame
  simp only [cap_accepts, hf, hb]

theorem settled_refl (w : World) : settled w w :=
  ⟨rfl, rfl, rfl, ⟨0, by simp, by simp⟩, ⟨[], by simp, by simp⟩⟩

theorem settled_trans {w w1 w2 : World} (h1 : settled w w1) (h2 : settled w1 w2) :
    settled w w2 := by
  obtain ⟨hc1, hf1, hb1, ⟨m1, hn1, hq1⟩, ⟨p1, ht1, hp1⟩⟩ := h1
  obtain ⟨hc2, hf2, hb2, ⟨m2, hn2, hq2⟩, ⟨p2, ht2, hp2⟩⟩ := h2
  refine ⟨hc2.trans hc1, hf2.trans hf1, hb2.trans hb1, ⟨m1 + m2, ?_, ?_⟩, ⟨p1 ++ p2, ?_, ?_⟩⟩
  · rw [hn2, hn1, List.drop_drop]
  · rw [hq2, hq1, hn1, cap_accepts_congr w w1 hf1 hb1, List.take_add, List.flatten_append,
      List.filter_append, List.append_assoc]
  · rw [ht2, ht1, List.append_assoc]
  · intro c hc
    rcases List.mem_append.mp hc with h | h
    · exact hp1 c h
    · exact hp2 c h

theorem arrive_settled (w : World) : settled w (arrive w) := by
  refine ⟨?_, ?_, ?_, ⟨1, ?_, ?_⟩, ⟨[], ?_, by simp⟩⟩ <;>
    (unfold arrive; cases h : w.net <;> simp [h])

theorem settled_errno (w : World) (e : Int) : settled w { w with errno := e } :=
  ⟨rfl, rfl, rfl, ⟨0, by simp, by simp⟩, ⟨[], by simp, by simp⟩⟩

theorem settled_devs (w : World) (devs : List Char → Option netdev) :
    settled w { w with devs := devs } :=
  ⟨rfl, rfl, rfl, ⟨0, by simp, by simp⟩, ⟨[], by simp, by simp⟩⟩

theorem sys_plain_settled (w : World) (c : Call) (hq : quiet c = true) :
    settled w (sys_plain w c).2 := by
  simp only [sys_plain, World.log]
  cases w.fault c <;>
    exact ⟨rfl, rfl, rfl, ⟨0, by simp, by simp⟩, ⟨[c], rfl, by simpa using hq⟩⟩

theorem sys_plain_sock_settled (w : World) (c : Call) (hq : quiet c = true) :
    settled w (sys_plain_sock w c).2 :=
  settled_trans (arrive_settled w) (sys_plain_settled (arrive w) c hq)

theorem sys_close_settled (w : World) (fd : Int) : settled w (sys_close w fd) :=
  ⟨rfl, rfl, rfl, ⟨0, by simp [sys_close, World.log], by simp [sys_close, World.log]⟩,
    ⟨[Call.close fd], rfl, by simp [quiet]⟩⟩

theorem sys_ioctl_SIOCGIFFLAGS_settled (w : World) (fd : Int) (name : List Char) :
    settled w (sys_ioctl_SIOCGIFFLAGS w fd name).2.2 := by
  unfold sys_ioctl_SIOCGIFFLAGS
  have h := sys_plain_sock_settled w (Call.ioctl_SIOCGIFFLAGS fd name) rfl
  generalize sys_plain_sock w (Call.ioctl_SIOCGIFFLAGS fd name) = q at h ⊢
  obtain ⟨rc, w1⟩ := q
  dsimp only at h ⊢
  split
  · exact h
  · cases w1.devs name
    · exact settled_trans h (settled_errno w1 _)
    · exact h

theorem sys_ioctl_SIOCSIFFLAGS_settled (w : World) (fd : Int) (name : List Char)
    (flags : Nat) : settled w (sys_ioctl_SIOCSIFFLAGS w fd name flags).2 := by
  unfold sys_ioctl_SIOCSIFFLAGS
  have h := sys_plain_sock_settled w (Call.ioctl_SIOCSIFFLAGS fd name flags) rfl
  generalize sys_plain_sock w (Call.ioctl_SIOCSIFFLAGS fd name flags) = q at h ⊢
  obtain ⟨rc, w1⟩ := q
  dsimp only at h ⊢
  split
  · exact h
  · cases w1.devs name
    · exact settled_trans h (settled_errno w1 _)
    · exact settled_trans h (settled_devs w1 _)

theorem sys_ioctl_SIOCGIFINDEX_settled (w : World) (fd : Int) (name : List Char) :
    settled w (sys_ioctl_SIOCGIFINDEX w fd name).2.2 := by
  unfold sys_ioctl_SIOCGIFINDEX
  have h := sys_plain_sock_settled w (Call.ioctl_SIOCGIFINDEX fd name) rfl
  generalize sys_plain_sock w (Call.ioctl_SIOCGIFINDEX fd name) = q at h ⊢
  obtain ⟨rc, w1⟩ := q
  dsimp only at h ⊢
  split
  · exact h
  · cases w1.devs name
    · exact settled_trans h (settled_errno w1 _)
    · exact h

theorem set_promisc_settled (w : World) (sock : Int) (interface : List Char) (state : Int) :
    settled w (set_promisc w sock interface state).2 := by
  unfold set_promisc
  dsimp only
  have h := sys_ioctl_SIOCGIFFLAGS_settled w sock (strncpy interface IFNAMSIZ)
  generalize sys_ioctl_SIOCGIFFLAGS w sock (strncpy interface IFNAMSIZ) = q at h ⊢
  obtain ⟨rc, flags, w1⟩ := q
  dsimp only at h ⊢
  split
  · exact h
  · split
    · exact h
    · generalize (if state ≠ 0 then flags ||| IFF_PROMISC
        else flags &&& (0xFFFF - IFF_PROMISC)) = flags1
      have h2 := sys_ioctl_SIOCSIFFLAGS_settled w1 sock (strncpy interface IFNAMSIZ) flags1
      generalize sys_ioctl_SIOCSIFFLAGS w1 sock (strncpy interface IFNAMSIZ) flags1 = q2 at h2 ⊢
      obtain ⟨rc2, w2⟩ := q2
      dsimp only at h2 ⊢
      split <;> exact settled_trans h h2

theorem open_sock_bind_settled (L : catnip_h) (w : World) (omsg : catnip_msg)
    (sock promisc : Int) :
    settled w (open_sock_bind L w omsg sock promisc).2 := by
  unfold open_sock_bind
  cases omsg.payload.mirror.interface with
  | none => exact settled_refl w
  | some interface =>
    dsimp only
    have h := sys_ioctl_SIOCGIFINDEX_settled w sock
      (strncpy interface (min IFNAMSIZ L.CATNIP_IFNAMSIZ))
    generalize sys_ioctl_SIOCGIFINDEX w sock
      (strncpy interface (min IFNAMSIZ L.CATNIP_IFNAMSIZ)) = q at h ⊢
    obtain ⟨rc, ifindex, w1⟩ := q
    dsimp only at h ⊢
    split
    · exact settled_trans h (sys_close_settled _ _)
    · have h2 := sys_plain_sock_settled w1 (Call.bind_ll sock ifindex) rfl
      generalize sys_plain_sock w1 (Call.bind_ll sock ifindex) = q2 at h2 ⊢
      obtain ⟨rc2, w2⟩ := q2
      dsimp only at h2 ⊢
      split
      · exact settled_trans (settled_trans h h2) (sys_close_settled _ _)
      · split
        · have h3 := set_promisc_settled w2 sock interface 1
          generalize set_promisc w2 sock interface 1 = q3 at h3 ⊢
          obtain ⟨p1, w3⟩ := q3
          dsimp only at h3 ⊢
          split
          · exact settled_trans (settled_trans (settled_trans h h2) h3)
              (sys_close_settled _ _)
          · exact settled_trans (settled_trans h h2) h3
        · exact settled_trans h h2

theorem open_sock_nonblock_settled (w : World) (sock : Int) :
    settled w (open_sock_nonblock w sock).2 := by
  unfold open_sock_nonblock sys_fcntl_F_GETFL
  have h := sys_plain_sock_settled w (Call.fcntl_F_GETFL sock) rfl
  generalize sys_plain_sock w (Call.fcntl_F_GETFL sock) = q at h ⊢
  obtain ⟨rc, w1⟩ := q
  dsimp only at h ⊢
  split
  · dsimp only
    split
    · exact settled_trans h (sys_close_settled _ _)
    · rename_i hne
      exact absurd rfl hne
  · dsimp only
    split
    · rename_i hrw
      exact absurd hrw (by decide)
    · have h2 := sys_plain_sock_settled w1
        (Call.fcntl_F_SETFL sock ((O_RDWR : Int).toNat ||| O_NONBLOCK)) rfl
      generalize sys_plain_sock w1
        (Call.fcntl_F_SETFL sock ((O_RDWR : Int).toNat ||| O_NONBLOCK)) = q2 at h2 ⊢
      obtain ⟨rc2, w2⟩ := q2
      dsimp only at h2 ⊢
      split
      · exact settled_trans (settled_trans h h2) (sys_close_settled _ _)
      · exact settled_trans h h2

theorem open_sock_rest_settled (L : catnip_h) (w : World) (omsg : catnip_msg)
    (sock promisc : Int) :
    settled w
      (match open_sock_bind L w omsg sock promisc with
        | (some rc, w3) => (rc, w3)
        | (none, w3) => open_sock_nonblock w3 sock).2 := by
  have h := open_sock_bind_settled L w omsg sock promisc
  generalize open_sock_bind L w omsg sock promisc = q at h ⊢
  obtain ⟨r, w3⟩ := q
  cases r with
  | some rc => exact h
  | none => exact settled_trans h (open_sock_nonblock_settled w3 sock)

theorem attach_ok (w : World) (fd : Int) (prog : List sock_filter)
    (hf : w.fault (Call.setsockopt_SO_ATTACH_FILTER fd prog) = none) (hp : prog ≠ []) :
    ∃ w1, sys_setsockopt_SO_ATTACH_FILTER w fd prog = (0, w1) ∧ attached w fd prog w1 := by
  obtain ⟨q, hq, _⟩ := arrive_eq w
  simp [sys_setsockopt_SO_ATTACH_FILTER, sys_plain_sock, sys_plain, World.log, attached, hq, hf, hp]

theorem drain_loop_empties (sock : Int) :
    ∀ (fuel : Nat) (w : World), drain_budget w < fuel →
      ∃ k, drain_loop fuel w sock
        = { w with errno := EAGAIN, cap_queue := [], net := w.net.drop (k + 1),
                   trace := w.trace ++ List.replicate (k + 1) (Call.recv sock) } := by
  intro fuel
  induction fuel with
  | zero => intro w h; omega
  | succ fuel ih =>
    intro w hb
    obtain ⟨q, hq, hlen⟩ := arrive_eq w
    cases hqueue : w.cap_queue ++ q with
    | nil =>
      refine ⟨0, ?_⟩
      simp [drain_loop, sys_recv, World.log, hq, hqueue]
    | cons frame queue =>
      have hbud : drain_budget
          { w with net := w.net.drop 1, cap_queue := queue,
                   trace := w.trace ++ [Call.recv sock] } < fuel := by
        have h1 : (w.cap_queue ++ q).length = queue.length + 1 := by rw [hqueue]; simp
        rw [List.length_append] at h1
        have h2 : (w.net.map List.length).sum
            = ((w.net.take 1).map List.length).sum + ((w.net.drop 1).map List.length).sum := by
          rw [← List.sum_append, ← List.map_append, List.take_append_drop]
        simp only [drain_budget] at hb ⊢
        omega
      obtain ⟨k, hk⟩ := ih _ hbud
      refine ⟨k + 1, ?_⟩
      have hnn : (frame.length : Int) ≥ 0 := by omega
      simp only [drain_loop, sys_recv, World.log, hq, hqueue, hnn, if_true]
      rw [hk]
      simp [List.replicate_succ, Nat.add_comm 1]

theorem lowest_free_nonneg (fds : List Int) : 0 ≤ lowest_free fds := by
  unfold lowest_free
  dsimp only
  split
  · exact Int.ofNat_nonneg _
  · exact Int.ofNat_nonneg _

theorem socket_packet_ok (w : World) (raw : Bool)
    (hf : w.fault (Call.socket_PF_PACKET raw) = none) :
    sys_socket_PF_PACKET w raw
      = (lowest_free w.fds,
          { w with trace := w.trace ++ [Call.socket_PF_PACKET raw],
                   fds := lowest_free w.fds :: w.fds, cap_filter := none, cap_queue := [] }) := by
  have h0 := lowest_free_nonneg w.fds
  have h1 : ¬ (lowest_free w.fds < 0) := by omega
  have h01 : ¬ ((0 : Int) = -1) := by decide
  simp [sys_socket_PF_PACKET, sys_socket, sys_plain, World.log, hf, h1]

theorem open_sock_attach_installs (w : World) (sock : Int) (filter : List sock_filter)
    (hne : filter ≠ [])
    (hdropf : w.fault (Call.setsockopt_SO_ATTACH_FILTER sock total_fcode) = none)
    (hrealf : w.fault (Call.setsockopt_SO_ATTACH_FILTER sock filter) = none) :
    ∃ w5, open_sock_attach w sock filter = (none, w5)
      ∧ w5.ctl_in = w.ctl_in ∧ w5.cap_filter = some filter := by
  have h01 : ¬ ((0 : Int) < 0) := by decide
  unfold open_sock_attach
  obtain ⟨w1, h1, -, -, -, hf1, -, hc1, -⟩ := attach_ok w sock total_fcode hdropf (by decide)
  rw [h1]
  simp only [h01, if_false]
  obtain ⟨k, hk⟩ := drain_loop_empties sock (drain_budget w1 + 1) w1 (Nat.lt_succ_self _)
  rw [hk]
  obtain ⟨w2, h2, hp2, -, -, -, -, hc2, -⟩ := attach_ok
    { w1 with errno := EAGAIN, cap_queue := [], net := w1.net.drop (k + 1),
              trace := w1.trace ++ List.replicate (k + 1) (Call.recv sock) }
    sock filter (by show w1.fault _ = none; rw [hf1]; exact hrealf) hne
  rw [h2]
  simp only [h01, if_false]
  exact ⟨w2, rfl, hc2.trans hc1, hp2⟩

theorem sys_calloc_ok (w : World) (nmemb size : Nat)
    (hf : w.fault (Call.calloc nmemb size) = none) :
    sys_calloc w nmemb size = (true, { w with trace := w.trace ++ [Call.calloc nmemb size] }) := by
  simp [sys_calloc, sys_plain, World.log, hf]

theorem open_sock_filter_short (w : World) (s : sock) (omsg : catnip_msg) (sock : Int)
    (recs : List catnip_sock_filter) (tail : List RdEvent)
    (hn16 : omsg.payload.mirror.bf_len < 2 ^ 16)
    (hcalloc : w.fault (Call.calloc omsg.payload.mirror.bf_len sizeof_catnip_sock_filter) = none)
    (hfit : ∀ r ∈ recs, fpins_fits r)
    (hin : w.ctl_in = records_then recs tail)
    (hlen : recs.length < omsg.payload.mirror.bf_len)
    (hbad : no_record tail = true) :
    (open_sock_filter w s omsg sock).1 = some (-EX_SOFTWARE) := by
  have hlen16 : toUInt16 omsg.payload.mirror.bf_len = omsg.payload.mirror.bf_len :=
    Nat.mod_eq_of_lt hn16
  have hn0 : omsg.payload.mirror.bf_len ≠ 0 := by omega
  have hrd := open_sock_rd_short s tail recs omsg.payload.mirror.bf_len
    { w with trace := w.trace
        ++ [Call.calloc omsg.payload.mirror.bf_len sizeof_catnip_sock_filter] }
    (List.replicate sizeof_catnip_sock_filter 0) [] hlen (by simp) hfit hin hbad
  simp only [open_sock_filter, hn0, ne_eq, not_false_eq_true, if_true, hlen16,
    sys_calloc_ok w _ _ hcalloc, Bool.true_eq_false, if_false]
  generalize open_sock_rd omsg.payload.mirror.bf_len
    { w with trace := w.trace
        ++ [Call.calloc omsg.payload.mirror.bf_len sizeof_catnip_sock_filter] }
    s (List.replicate sizeof_catnip_sock_filter 0) [] = q at hrd ⊢
  obtain ⟨r, w2⟩ := q
  dsimp only at hrd
  subst hrd
  rfl

theorem open_sock_filter_installs (w : World) (s : sock) (omsg : catnip_msg) (sock : Int)
    (recs : List catnip_sock_filter) (tail : List RdEvent)
    (hn0 : omsg.payload.mirror.bf_len ≠ 0) (hne0 : recs ≠ [])
    (hlen : recs.length = toUInt16 omsg.payload.mirror.bf_len)
    (hcalloc : w.fault (Call.calloc (toUInt16 omsg.payload.mirror.bf_len)
      sizeof_catnip_sock_filter) = none)
    (hfit : ∀ r ∈ recs, fpins_fits r)
    (hin : w.ctl_in = records_then recs tail)
    (hdropf : w.fault (Call.setsockopt_SO_ATTACH_FILTER sock total_fcode) = none)
    (hrealf : w.fault (Call.setsockopt_SO_ATTACH_FILTER sock (recs.map sock_filter_of)) = none) :
    ∃ w5, open_sock_filter w s omsg sock = (none, w5)
      ∧ w5.ctl_in = tail ∧ w5.cap_filter = some (recs.map sock_filter_of) := by
  have hne : recs.map sock_filter_of ≠ [] := by
    intro h
    exact hne0 (List.map_eq_nil_iff.mp h)
  rw [← hlen] at hcalloc
  obtain ⟨e, hrd⟩ := open_sock_rd_records s tail recs
    { w with trace := w.trace ++ [Call.calloc recs.length sizeof_catnip_sock_filter] }
    (List.replicate sizeof_catnip_sock_filter 0) [] (by simp) hfit hin
  obtain ⟨w5, h5, hc5, hp5⟩ := open_sock_attach_installs
    { w with errno := e, ctl_in := tail,
             trace := w.trace ++ [Call.calloc recs.length sizeof_catnip_sock_filter]
               ++ List.replicate recs.length (Call.read s.fd sizeof_catnip_sock_filter) }
    sock (recs.map sock_filter_of) hne hdropf hrealf
  refine ⟨w5, ?_, hc5, hp5⟩
  simp only [open_sock_filter, hn0, ne_eq, not_false_eq_true, if_true, ← hlen,
    sys_calloc_ok w _ _ hcalloc, Bool.true_eq_false, if_false, hrd, List.nil_append]
  exact h5

theorem open_sock_installs (L : catnip_h) (w : World) (s : sock) (omsg : catnip_msg)
    (recs : List catnip_sock_filter) (tail : List RdEvent)
    (hn0 : omsg.payload.mirror.bf_len ≠ 0) (hne0 : recs ≠ [])
    (hlen : recs.length = toUInt16 omsg.payload.mirror.bf_len)
    (hsock : w.fault (Call.socket_PF_PACKET omsg.payload.mirror.interface.isSome) = none)
    (hcalloc : w.fault (Call.calloc (toUInt16 omsg.payload.mirror.bf_len)
      sizeof_catnip_sock_filter) = none)
    (hfit : ∀ r ∈ recs, fpins_fits r)
    (hin : w.ctl_in = records_then recs tail)
    (hdropf : w.fault (Call.setsockopt_SO_ATTACH_FILTER (lowest_free w.fds) total_fcode) = none)
    (hrealf : w.fault (Call.setsockopt_SO_ATTACH_FILTER (lowest_free w.fds)
        (recs.map sock_filter_of)) = none) :
    (open_sock L w s omsg).2.ctl_in = tail
      ∧ (open_sock L w s omsg).2.cap_filter = some (recs.map sock_filter_of) := by
  have hnn : ¬ (lowest_free w.fds < 0) := by
    have := lowest_free_nonneg w.fds
    omega
  obtain ⟨w5, h5, hc5, hp5⟩ := open_sock_filter_installs
    { w with trace := w.trace ++ [Call.socket_PF_PACKET omsg.payload.mirror.interface.isSome],
             fds := lowest_free w.fds :: w.fds, cap_filter := none, cap_queue := [] }
    s omsg (lowest_free w.fds) recs tail hn0 hne0 hlen hcalloc hfit hin hdropf hrealf
  have hrest := open_sock_rest_settled L w5 omsg (lowest_free w.fds)
    omsg.payload.mirror.promisc
  simp only [open_sock, socket_packet_ok w _ hsock, hnn, if_false, h5]
  exact ⟨hrest.1.trans hc5, hrest.2.1.trans hp5⟩

/-- Within the 16 bits of the length field of a filter program, `open_sock`
reads the program as declared: for a mirror request whose `bf_len` is `n` with
`0 < n < 2^16`, when the socket and the allocation succeed and the control
channel delivers filter instructions each whole in one `read`: if it delivers
`n` of them and both filter attachments succeed, `open_sock` leaves the channel
right after the `n`-th record and the filter attached to the capture socket is
those `n` instructions in order, with the same code, jt, jf and k; if it
delivers fewer than `n` and then fails to deliver another, `open_sock`
returns `-EX_SOFTWARE`. -/
theorem open_sock_reads_filter (L : catnip_h) (w : World) (s : sock) (omsg : catnip_msg)
    (recs : List catnip_sock_filter) (tail : List RdEvent)
    (hn16 : omsg.payload.mirror.bf_len < 2 ^ 16)
    (hsock : w.fault (Call.socket_PF_PACKET omsg.payload.mirror.interface.isSome) = none)
    (hcalloc : w.fault (Call.calloc omsg.payload.mirror.bf_len sizeof_catnip_sock_filter) = none)
    (hfit : ∀ r ∈ recs, fpins_fits r)
    (hin : w.ctl_in = records_then recs tail) :
    (omsg.payload.mirror.bf_len ≠ 0 → recs.length = omsg.payload.mirror.bf_len →
      w.fault (Call.setsockopt_SO_ATTACH_FILTER (lowest_free w.fds) total_fcode) = none →
      w.fault (Call.setsockopt_SO_ATTACH_FILTER (lowest_free w.fds)
        (recs.map sock_filter_of)) = none →
      (open_sock L w s omsg).2.ctl_in = tail
        ∧ (open_sock L w s omsg).2.cap_filter = some (recs.map sock_filter_of))
    ∧ (recs.length < omsg.payload.mirror.bf_len → no_record tail = true →
      (open_sock L w s omsg).1 = -EX_SOFTWARE) := by
  have hnn : ¬ (lowest_free w.fds < 0) := by
    have := lowest_free_nonneg w.fds
    omega
  constructor
  · intro hn0 hlen hdropf hrealf
    have h16 : toUInt16 omsg.payload.mirror.bf_len = omsg.payload.mirror.bf_len :=
      Nat.mod_eq_of_lt hn16
    have hne0 : recs ≠ [] := by
      intro h
      rw [h] at hlen
      exact hn0 hlen.symm
    exact open_sock_installs L w s omsg recs tail hn0 hne0 (hlen.trans h16.symm) hsock
      (by rw [h16]; exact hcalloc) hfit hin hdropf hrealf
  · intro hlen hbad
    have hshort := open_sock_filter_short
      { w with trace := w.trace ++ [Call.socket_PF_PACKET omsg.payload.mirror.interface.isSome],
               fds := lowest_free w.fds :: w.fds, cap_filter := none, cap_queue := [] }
      s omsg (lowest_free w.fds) recs tail hn16 hcalloc hfit hin hlen hbad
    simp only [open_sock, socket_packet_ok w _ hsock, hnn, if_false]
    generalize open_sock_filter
      { w with trace := w.trace ++ [Call.socket_PF_PACKET omsg.payload.mirror.interface.isSome],
               fds := lowest_free w.fds :: w.fds, cap_filter := none, cap_queue := [] }
      s omsg (lowest_free w.fds) = q at hshort ⊢
    obtain ⟨r, w2⟩ := q
    dsimp only at hshort
    subst hshort
    rfl

/-- A request with `bf_len = 2` and a channel that delivers "ldh [12]" and
"ret 65535" ends with those two instructions attached and the channel at its
end. -/
theorem open_sock_reads_filter_two :
    (open_sock catnip_h.example
        { World.idle with ctl_in := records_then [ldh_insn, accept_insn] [] } ⟨0⟩
        (mirror_any 2)).2.ctl_in = []
    ∧ (open_sock catnip_h.example
        { World.idle with ctl_in := records_then [ldh_insn, accept_insn] [] } ⟨0⟩
        (mirror_any 2)).2.cap_filter
      = some [{ code := 0x28, jt := 0, jf := 0, k := 12 },
              { code := 6, jt := 0, jf := 0, k := 65535 }] :=
  (open_sock_reads_filter catnip_h.example
      { World.idle with ctl_in := records_then [ldh_insn, accept_insn] [] } ⟨0⟩ (mirror_any 2)
      [ldh_insn, accept_insn] [] (by decide) rfl rfl
      (by simp [fpins_fits, ldh_insn, accept_insn]) rfl).1
    (by decide) rfl rfl rfl

/-- C4, the code at the failing input: a mirror request with `bf_len = 65537`,
a non-zero 32-bit value, and a channel that delivers 65537 instructions.  The
assignment `fp.len = omsg->payload.mirror.bf_len` keeps the low 16 bits, which
are `1`: `open_sock` reads one record, so that 65536 of the 65537 are left on
the channel, and attaches a program of that one instruction. -/
theorem open_sock_filter_len_wraps :
    (World.flood 65537).ctl_in.length = 65537
    ∧ (open_sock catnip_h.example (World.flood 65537) ⟨0⟩ (mirror_any 65537)).2.ctl_in.length
        = 65536
    ∧ (open_sock catnip_h.example (World.flood 65537) ⟨0⟩ (mirror_any 65537)).2.cap_filter
        = some [{ code := 6, jt := 0, jf := 0, k := 65535 }] := by
  have hin : (World.flood 65537).ctl_in
      = records_then [accept_insn]
          (List.replicate 65536 (RdEvent.data (fpins_bytes accept_insn))) := by
    show List.replicate (65536 + 1) (RdEvent.data (fpins_bytes accept_insn))
      = RdEvent.data (fpins_bytes accept_insn)
        :: List.replicate 65536 (RdEvent.data (fpins_bytes accept_insn))
    exact List.replicate_succ _ _
  have h := open_sock_installs catnip_h.example (World.flood 65537) ⟨0⟩ (mirror_any 65537)
    [accept_insn] (List.replicate 65536 (RdEvent.data (fpins_bytes accept_insn)))
    (by decide) (by decide) (by decide) rfl rfl (by simp [fpins_fits, accept_insn]) hin rfl rfl
  refine ⟨?_, ?_, h.2⟩
  · show (List.replicate 65537 (RdEvent.data (fpins_bytes accept_insn))).length = 65537
    exact List.length_replicate _ _
  · rw [h.1]
    exact List.length_replicate _ _

/-- The run of `open_sock` on the kernel `World.busy`: the two frames that
arrived before the first attachment and the frames that arrived during the
three `recv` calls and the second attachment are gone; the frame that arrived
during the `fcntl` after it, which the request's program "return 65535"
accepts, is the only one queued. -/
theorem open_sock_busy_run :
    (open_sock catnip_h.example World.busy ⟨0⟩ (mirror_any 1)).1 = 3
    ∧ (open_sock catnip_h.example World.busy ⟨0⟩ (mirror_any 1)).2.trace
      = [Call.socket_PF_PACKET false, Call.calloc 1 8, Call.read 0 8,
         Call.setsockopt_SO_ATTACH_FILTER 3 [{ code := 6, jt := 0, jf := 0, k := 0 }],
         Call.recv 3, Call.recv 3, Call.recv 3,
         Call.setsockopt_SO_ATTACH_FILTER 3 [{ code := 6, jt := 0, jf := 0, k := 65535 }],
         Call.fcntl_F_GETFL 3, Call.fcntl_F_SETFL 3 2050]
    ∧ (open_sock catnip_h.example World.busy ⟨0⟩ (mirror_any 1)).2.cap_queue = [[12]]
    ∧ (open_sock catnip_h.example World.busy ⟨0⟩ (mirror_any 1)).2.net = [] := by
  decide

/-- C8, the code at the failing input: a request for `eth0` in promiscuous
mode on a kernel that refuses the flag change.  `set_promisc` returns
`-EX_OSERR`, `open_sock` closes the socket and returns `EX_OSERR = 71`, which
is not negative, and `cmd_mirror` goes on to `getsockname` and waits in
`select (72, ...)` on descriptor 71. -/
theorem open_sock_promisc_failure_positive :
    (set_promisc World.no_flag_change 3 "eth0".toList 1).1 = -EX_OSERR
    ∧ (open_sock catnip_h.example World.no_flag_change ⟨0⟩ mirror_eth0_promisc).1 = EX_OSERR
    ∧ (open_sock catnip_h.example World.no_flag_change ⟨0⟩ mirror_eth0_promisc).2.fds = [0, 1, 2]
    ∧ Call.getsockname 0
        ∈ (cmd_mirror catnip_h.example World.no_flag_change ⟨0⟩ mirror_eth0_promisc).2.trace
    ∧ Call.select 72 [71, 0]
        ∈ (cmd_mirror catnip_h.example World.no_flag_change ⟨0⟩ mirror_eth0_promisc).2.trace := by
  decide

/-- C10, the code at the failing input: the control channel is descriptor 4
and the capture socket gets descriptor 3, so `select (4, ...)` does not look
at the control channel.  When only the control channel is readable the wait
does not return and the loop never stops; when the capture socket is readable
as well the loop reads the capture socket, sends on the replay socket and
goes on waiting. -/
theorem cmd_mirror_select_misses_control :
    (cmd_mirror catnip_h.example (World.forked [SelEvent.ready [4]]) ⟨4⟩ (mirror_any 0)).1 = none
    ∧ (cmd_mirror catnip_h.example (World.forked [SelEvent.ready [4]]) ⟨4⟩
        (mirror_any 0)).2.trace.getLast? = some (Call.select 4 [3, 4])
    ∧ (cmd_mirror catnip_h.example (World.forked [SelEvent.ready [4, 3]]) ⟨4⟩
        (mirror_any 0)).1 = none
    ∧ Call.read 3 65536
        ∈ (cmd_mirror catnip_h.example (World.forked [SelEvent.ready [4, 3]]) ⟨4⟩
            (mirror_any 0)).2.trace
    ∧ Call.send 5 (-1)
        ∈ (cmd_mirror catnip_h.example (World.forked [SelEvent.ready [4, 3]]) ⟨4⟩
            (mirror_any 0)).2.trace := by
  decide

theorem FD_SET_mem (fd : Int) (set : List Int) : fd ∈ FD_SET fd set := by
  unfold FD_SET
  split
  · assumption
  · exact List.mem_cons_self _ _

theorem FD_SET_mem_of_mem (fd x : Int) (set : List Int) (h : x ∈ set) : x ∈ FD_SET fd set := by
  unfold FD_SET
  split
  · exact h
  · exact List.mem_cons_of_mem _ h

/-- The wait cycle of `cmd_mirror` when the control channel's descriptor is
not above the capture socket's: if the control channel is readable at the
next moment of the wait, the loop stops in that cycle and `cmd_mirror` returns
`EX_OK`, and the only call made is the `select`. -/
theorem mirror_loop_stops_on_control (w : World) (s : sock) (cfd pfd : Int) (rfds : List Int)
    (fuel : Nat) (r : List Int) (rest : List SelEvent)
    (hsel : w.selects = SelEvent.ready r :: rest) (hready : s.fd ∈ r) (hle : s.fd ≤ cfd) :
    mirror_loop (fuel + 1) w s cfd pfd rfds
      = (some EX_OK,
          { w with selects := rest,
                   trace := w.trace
                     ++ [Call.select (cfd + 1) (FD_SET cfd (FD_SET s.fd rfds))] }) := by
  have hin : s.fd ∈ FD_SET cfd (FD_SET s.fd rfds) :=
    FD_SET_mem_of_mem _ _ _ (FD_SET_mem _ _)
  have hhit : s.fd ∈ (FD_SET cfd (FD_SET s.fd rfds)).filter
      (fun fd => decide (fd < cfd + 1) && decide (fd ∈ r)) := by
    rw [List.mem_filter]
    refine ⟨hin, ?_⟩
    have : s.fd < cfd + 1 := by omega
    simp [this, hready]
  have hne : (FD_SET cfd (FD_SET s.fd rfds)).filter
      (fun fd => decide (fd < cfd + 1) && decide (fd ∈ r)) ≠ [] :=
    List.ne_nil_of_mem hhit
  have hrc : ¬ (((List.filter (fun fd => decide (fd < cfd + 1) && decide (fd ∈ r))
      (FD_SET cfd (FD_SET s.fd rfds))).length : Int) = -1) := by omega
  have hset : FD_ISSET s.fd
      ((FD_SET cfd (FD_SET s.fd rfds)).filter
          (fun fd => decide (fd < cfd + 1) && decide (fd ∈ r))
        ++ (FD_SET cfd (FD_SET s.fd rfds)).filter
          (fun fd => decide ((cfd + 1 + BITS_PER_LONG - 1) / BITS_PER_LONG * BITS_PER_LONG ≤ fd)))
      = true := by
    simp only [FD_ISSET, decide_eq_true_eq]
    exact List.mem_append_left _ hhit
  simp only [mirror_loop, sys_select, World.log, hsel, select_wait, hne, if_false, hrc, hset,
    if_true]

/-- The bound on the passes of the loop of `wr` is never reached: with any
fuel above the length of the write script the result is the same. -/
theorem wr_loop_fuel (s : sock) (data : Payload) (size : Nat) :
    ∀ (fuel1 fuel2 : Nat) (w : World), w.ctl_wr.length < fuel1 → w.ctl_wr.length < fuel2 →
      wr_loop fuel1 w s data size = wr_loop fuel2 w s data size := by
  intro fuel1
  induction fuel1 with
  | zero => intro fuel2 w h; omega
  | succ fuel1 ih =>
    intro fuel2 w h1 h2
    obtain ⟨fuel2, rfl⟩ : ∃ k, fuel2 = k + 1 := ⟨fuel2 - 1, by omega⟩
    cases hwr : w.ctl_wr with
    | nil =>
      have hne : ¬ (EPIPE = EINTR) := by decide
      simp [wr_loop, sys_write, World.log, hwr, hne]
    | cons ev rest =>
      rw [hwr] at h1 h2
      simp only [List.length_cons] at h1 h2
      cases ev with
      | fail e =>
        simp only [wr_loop, sys_write, World.log, hwr]
        rw [ih fuel2 _ (by show rest.length < fuel1; omega) (by show rest.length < fuel2; omega)]
      | room k =>
        simp only [wr_loop, sys_write, World.log, hwr]
        rw [ih fuel2 _ (by show rest.length < fuel1; omega) (by show rest.length < fuel2; omega)]

/-- The bound on the passes of the loop of `rd` is never reached: with any
fuel from the budget of the read script upwards the result is the same. -/
theorem rd_loop_fuel (s : sock) (size : Nat) :
    ∀ (fuel1 fuel2 : Nat) (w : World) (data : List Nat),
      rd_budget w.ctl_in ≤ fuel1 → rd_budget w.ctl_in ≤ fuel2 →
      rd_loop fuel1 w s data size = rd_loop fuel2 w s data size := by
  intro fuel1
  induction fuel1 with
  | zero =>
    intro fuel2 w data h
    have := rd_budget_pos w.ctl_in
    omega
  | succ fuel1 ih =>
    intro fuel2 w data h1 h2
    obtain ⟨fuel2, rfl⟩ : ∃ k, fuel2 = k + 1 :=
      ⟨fuel2 - 1, by have := rd_budget_pos w.ctl_in; omega⟩
    have h0 : ¬ (toInt32 0 < 0) := by decide
    cases hrd : w.ctl_in with
    | nil => simp [rd_loop, sys_read, World.log, hrd, h0]
    | cons ev rest =>
      rw [hrd] at h1 h2
      cases ev with
      | fail e =>
        simp only [rd_budget] at h1 h2
        simp only [rd_loop, sys_read, World.log, hrd]
        rw [ih fuel2 _ _ (by show rd_budget rest ≤ fuel1; omega)
          (by show rd_budget rest ≤ fuel2; omega)]
      | data bs =>
        simp only [rd_budget] at h1 h2
        simp only [rd_loop, sys_read, World.log, hrd]
        by_cases hle : bs.length ≤ size
        · simp only [hle, if_true]
          rw [ih fuel2 _ _ (by show rd_budget rest ≤ fuel1; omega)
            (by show rd_budget rest ≤ fuel2; omega)]
        · simp only [hle, if_false]
          by_cases hneg : toInt32 (size : Int) < 0
          · have hs : size ≠ 0 := by
              intro h
              rw [h] at hneg
              exact h0 hneg
            have hdrop : (bs.drop size).length = bs.length - size := List.length_drop _ _
            rw [ih fuel2 _ _
              (by show rd_budget (RdEvent.data (bs.drop size) :: rest) ≤ fuel1
                  simp only [rd_budget, hdrop]; omega)
              (by show rd_budget (RdEvent.data (bs.drop size) :: rest) ≤ fuel2
                  simp only [rd_budget, hdrop]; omega)]
          · simp only [hneg, if_false]

theorem select_wait_shorter (nfds : Int) (rfds : List Int) :
    ∀ (l : List SelEvent) (rc : Int) (rfds1 : List Int) (e : Option Int) (rest : List SelEvent),
      select_wait nfds rfds l = some (rc, rfds1, e, rest) → rest.length < l.length := by
  intro l
  induction l with
  | nil => intro rc rfds1 e rest h; simp [select_wait] at h
  | cons ev l ih =>
    intro rc rfds1 e rest h
    cases ev with
    | fail e1 =>
      simp only [select_wait, Option.some.injEq, Prod.mk.injEq] at h
      rw [← h.2.2.2]
      simp
    | ready r =>
      simp only [select_wait] at h
      split at h
      · have := ih rc rfds1 e rest h
        simp only [List.length_cons]
        omega
      · simp only [Option.some.injEq, Prod.mk.injEq] at h
        rw [← h.2.2.2]
        simp

theorem sys_select_shorter (w : World) (nfds : Int) (rfds : List Int) (res : Int × List Int)
    (w1 : World) (h : sys_select w nfds rfds = (some res, w1)) :
    w1.selects.length < w.selects.length := by
  simp only [sys_select, World.log] at h
  split at h
  · simp at h
  · rename_i rc rfds1 rest heq
    have := select_wait_shorter nfds rfds _ _ _ _ _ heq
    simp only [Prod.mk.injEq] at h
    rw [← h.2]
    exact this
  · rename_i rc rfds1 e rest heq
    have := select_wait_shorter nfds rfds _ _ _ _ _ heq
    simp only [Prod.mk.injEq] at h
    rw [← h.2]
    exact this

theorem sys_read_capture_selects (w : World) (fd : Int) (size : Nat) :
    (sys_read_capture w fd size).2.selects = w.selects := by
  obtain ⟨q, hq, _⟩ := arrive_eq w
  simp only [sys_read_capture, World.log, hq]
  split <;> rfl

/-- The bound on the passes of the loop of `cmd_mirror` is never reached: with
any fuel above the length of the select script the result is the same, so a
result `none` means a `select` that does not return. -/
theorem mirror_loop_fuel (s : sock) (cfd pfd : Int) :
    ∀ (fuel1 fuel2 : Nat) (w : World) (rfds : List Int),
      w.selects.length < fuel1 → w.selects.length < fuel2 →
      mirror_loop fuel1 w s cfd pfd rfds = mirror_loop fuel2 w s cfd pfd rfds := by
  intro fuel1
  induction fuel1 with
  | zero => intro fuel2 w rfds h; omega
  | succ fuel1 ih =>
    intro fuel2 w rfds h1 h2
    obtain ⟨fuel2, rfl⟩ : ∃ k, fuel2 = k + 1 := ⟨fuel2 - 1, by omega⟩
    unfold mirror_loop
    dsimp only
    have hs := sys_select_shorter w (cfd + 1) (FD_SET cfd (FD_SET s.fd rfds))
    generalize sys_select w (cfd + 1) (FD_SET cfd (FD_SET s.fd rfds)) = q at hs ⊢
    obtain ⟨r, w1⟩ := q
    cases r with
    | none => rfl
    | some res =>
      have hlt := hs res w1 rfl
      obtain ⟨rc, rfds2⟩ := res
      dsimp only
      have hrec := ih fuel2 w1 rfds2 (by omega) (by omega)
      have hs2 := sys_read_capture_selects w1 cfd (64 * 1024)
      generalize sys_read_capture w1 cfd (64 * 1024) = q2 at hs2 ⊢
      obtain ⟨rc1, w2⟩ := q2
      dsimp only at hs2 ⊢
      have hrec2 := ih fuel2 (sys_send w2 pfd (toInt32 rc1)) rfds2
        (by show w2.selects.length < fuel1; rw [hs2]; omega)
        (by show w2.selects.length < fuel2; rw [hs2]; omega)
      rw [hrec, hrec2]

end Catnip
